import Mathlib

/-!
Verification of the robust LLM-invocation and structured-output-recovery layer
of the TourlyAI repository (src/python/core/llm_utils.py and
src/python/core/llm_provider.py), as described by its specification.

The Python code is shallowly embedded: pure string-processing functions
(`extraer_json_de_respuesta`, `reparar_json`, `parsear_json_seguro`,
`parsear_pydantic_seguro`, `RetryConfig.get_delay`) become executable Lean
functions over `List Char` / `String`; the retry loop of
`RobustStructuredChain.invoke` becomes a recursive function over the remaining
attempt budget, instrumented with counters for attempts, backend calls, parse
attempts, and a list of the backoff sleeps actually performed.  Backends are
modelled as functions from the attempt index to either returned text or a
raised error.  Pydantic models are modelled as validators from parsed JSON
objects to `Option` results.
-/

namespace Tourly

/-- Characters that are written via their code points to keep the source plain:
left brace. -/
def lbrace : Char := Char.ofNat 123

/-- Right brace. -/
def rbrace : Char := Char.ofNat 125

/-- Left square bracket. -/
def lbrack : Char := Char.ofNat 91

/-- Right square bracket. -/
def rbrack : Char := Char.ofNat 93

/-- Single quote (apostrophe). -/
def squote : Char := Char.ofNat 39

/-- Double quote. -/
def dquote : Char := Char.ofNat 34

/-- Backslash. -/
def bslash : Char := Char.ofNat 92

/-- Backtick. -/
def btick : Char := Char.ofNat 96

/-- ASCII whitespace recognized by Python's `str.strip()` and by the `\s`
regex class used in `llm_utils.py`: space, tab, newline, carriage return,
vertical tab, form feed. -/
def isPyWs (c : Char) : Bool :=
  c = ' ' || c = Char.ofNat 9 || c = Char.ofNat 10 || c = Char.ofNat 13 ||
  c = Char.ofNat 11 || c = Char.ofNat 12

/-- A regex `\w` word character (ASCII range, as used on the repaired JSON). -/
def isWordCh (c : Char) : Bool :=
  (c ≥ 'a' && c ≤ 'z') || (c ≥ 'A' && c ≤ 'Z') || (c ≥ '0' && c ≤ '9') || c = '_'

/-- Python `str.strip()` on a char list: drop whitespace from both ends. -/
def pstripL (cs : List Char) : List Char :=
  (cs.dropWhile isPyWs).rdropWhile isPyWs

/-- Python `str.strip()` on a `String`. -/
def pstrip (s : String) : String :=
  String.mk (pstripL s.data)

/-- Python `texto[:n]` character slice. -/
def takeStr (n : Nat) (s : String) : String :=
  String.mk (s.data.take n)

/-- Python `texto.find(c)`: index of the first occurrence of a character,
`None` standing for the `-1` failure result. -/
def findChar (target : Char) : List Char → Option Nat
  | [] => none
  | c :: rest => if c = target then some 0 else (findChar target rest).map (· + 1)

/-- The string-aware bracket scanner of `extraer_json_de_respuesta`
(llm_utils.py lines 107-134): walk the characters starting at index `i`
with nesting level `nivel`, in-string flag `enStr` and escape flag `esc`;
return the index one past the closing bracket that brings the level back
to zero, or `none` if the text ends first. -/
def scanCierre (copen cclose : Char) : List Char → Int → Bool → Bool → Nat → Option Nat
  | [], _, _, _, _ => none
  | c :: rest, nivel, enStr, esc, i =>
    if esc then scanCierre copen cclose rest nivel enStr false (i + 1)
    else if c = bslash then scanCierre copen cclose rest nivel enStr true (i + 1)
    else if c = dquote then scanCierre copen cclose rest nivel (!enStr) esc (i + 1)
    else if !enStr && c = copen then scanCierre copen cclose rest (nivel + 1) enStr esc (i + 1)
    else if !enStr && c = cclose then
      if nivel - 1 = 0 then some (i + 1)
      else scanCierre copen cclose rest (nivel - 1) enStr esc (i + 1)
    else scanCierre copen cclose rest nivel enStr esc (i + 1)

/-- The markdown fence of three backticks. -/
def fence : List Char := [btick, btick, btick]

/-- Split a list at the first occurrence of `needle`, returning the part
before it and the part after it. -/
def splitFirst (needle : List Char) : List Char → Option (List Char × List Char)
  | [] => if needle.isPrefixOf ([] : List Char) then some ([], []) else none
  | c :: rest =>
    if needle.isPrefixOf (c :: rest) then some ([], (c :: rest).drop needle.length)
    else (splitFirst needle rest).map (fun p => (c :: p.1, p.2))

/-- Case-insensitive character comparison (the `re.IGNORECASE` flag). -/
def ciEq (a b : Char) : Bool := a.toLower == b.toLower

/-- Match the (case-insensitive) tag `json` at the head of the list,
returning the remainder. -/
def matchJsonTag : List Char → Option (List Char)
  | c1 :: c2 :: c3 :: c4 :: rest =>
    if ciEq c1 'j' && ciEq c2 's' && ciEq c3 'o' && ciEq c4 'n' then some rest else none
  | _ => none

/-- Try the tagged fenced-block regex (fence, `json` tag, lazy body, closing
fence) at the current position: requires the fence, the tag, and a closing
fence somewhere after;
the lazy group takes everything up to the first closing fence.  (The `\s*`
around the group is immaterial because the caller strips the group.) -/
def tryP1 (cs : List Char) : Option (List Char) :=
  if fence.isPrefixOf cs then
    match matchJsonTag (cs.drop 3) with
    | some r => (splitFirst fence r).map (fun p => p.1)
    | none => none
  else none

/-- Try the untagged fenced-block regex at the current position. -/
def tryP2 (cs : List Char) : Option (List Char) :=
  if fence.isPrefixOf cs then (splitFirst fence (cs.drop 3)).map (fun p => p.1)
  else none

/-- Python `re.search` for the tagged pattern: try every start position, leftmost
match wins. -/
def searchP1 : List Char → Option (List Char)
  | [] => none
  | c :: rest =>
    match tryP1 (c :: rest) with
    | some x => some x
    | none => searchP1 rest

/-- Python `re.search` for the untagged pattern. -/
def searchP2 : List Char → Option (List Char)
  | [] => none
  | c :: rest =>
    match tryP2 (c :: rest) with
    | some x => some x
    | none => searchP2 rest

/-- Does the (stripped) candidate start with a brace or a bracket
(`json_str.startswith` checks, llm_utils.py line 81)? -/
def startsBrace : List Char → Bool
  | [] => false
  | c :: _ => c = lbrace || c = lbrack

/-- Markdown extraction loop of `extraer_json_de_respuesta` (lines 71-82):
try the tagged pattern, and if it matched but its stripped content does not
start with a brace, fall through to the untagged pattern. -/
def mdExtract (cs : List Char) : Option (List Char) :=
  let second :=
    match searchP2 cs with
    | some c => let js := pstripL c; if startsBrace js then some js else none
    | none => none
  match searchP1 cs with
  | some c => let js := pstripL c; if startsBrace js then some js else second
  | none => second

/-- The function `extraer_json_de_respuesta` (llm_utils.py lines 51-139): extract a JSON
candidate from a raw LLM response, first from markdown fenced blocks, then
by scanning for the first brace or bracket and its structurally matching
close with the string-aware bracket counter. -/
def extraer_json_de_respuesta (texto0 : String) : Option String :=
  let cs0 := texto0.data
  if pstripL cs0 = [] then none
  else
    let cs := pstripL cs0
    match mdExtract cs with
    | some js => some (String.mk js)
    | none =>
      let scanFrom : Nat → Char → Char → Option String := fun inicio copen cclose =>
        match scanCierre copen cclose (cs.drop inicio) 0 false false inicio with
        | some fin => if fin > inicio then some (String.mk ((cs.take fin).drop inicio)) else none
        | none => none
      match findChar lbrace cs, findChar lbrack cs with
      | none, none => none
      | some io, none => scanFrom io lbrace rbrace
      | none, some ia => scanFrom ia lbrack rbrack
      | some io, some ia =>
        if io < ia then scanFrom io lbrace rbrace else scanFrom ia lbrack rbrack

/-- BOM and zero-width characters stripped by `reparar_json` pass 1
(`strip('﻿​‌‍')`). -/
def invisCh (c : Char) : Bool :=
  c = Char.ofNat 0xFEFF || c = Char.ofNat 0x200B || c = Char.ofNat 0x200C || c = Char.ofNat 0x200D

/-- Repair pass 1: strip BOM / zero-width characters from both ends. -/
def rpStrip (cs : List Char) : List Char :=
  (cs.dropWhile invisCh).rdropWhile invisCh

/-- Lookbehind class of the single-quote repair regex. -/
def openClass (c : Char) : Bool := c = lbrace || c = ',' || c = ':' || c = lbrack

/-- Lookahead class of the single-quote repair regex. -/
def closeClass (c : Char) : Bool := c = rbrace || c = ',' || c = ':' || c = rbrack

/-- Attempt the single-quote pattern starting at the current position (after
the lookbehind has been checked): whitespace, a single-quoted run without
inner single quotes, whitespace, then a lookahead character of the close
class.  Returns the quoted content, the remainder after the consumed span
(the lookahead character is not consumed), and the last consumed character
(for subsequent lookbehind checks against the original text). -/
def tryQuoteMatch (cs : List Char) : Option (List Char × List Char × Char) :=
  match cs.dropWhile isPyWs with
  | [] => none
  | c :: r2 =>
    if c = squote then
      match splitFirst [squote] r2 with
      | none => none
      | some (content, r3) =>
        match r3.dropWhile isPyWs with
        | d :: r5 =>
          if closeClass d then some (content, d :: r5, (r3.takeWhile isPyWs).getLastD squote)
          else none
        | [] => none
    else none

/-- Length accounting for `splitFirst`. -/
def splitFirst_length (needle : List Char) :
    ∀ cs b a, splitFirst needle cs = some (b, a) → b.length + needle.length + a.length = cs.length := by
  intro cs
  induction cs with
  | nil =>
    intro b a h
    simp only [splitFirst] at h
    split at h
    · rename_i hp
      simp only [ List.isPrefixOf_iff_prefix] at hp
      simp [List.prefix_nil] at hp
      cases h
      simp [hp]
    · cases h
  | cons c rest ih =>
    intro b a h
    simp only [splitFirst] at h
    split at h
    · rename_i hp
      cases h
      simp only [ List.isPrefixOf_iff_prefix] at hp
      obtain ⟨t, ht⟩ := hp
      simp only [List.length_nil, Nat.zero_add, List.length_drop]
      have : needle.length ≤ (c :: rest).length := by
        rw [← ht]; simp
      omega
    · simp only [Option.map_eq_some'] at h
      obtain ⟨⟨b2, a2⟩, h2, h3⟩ := h
      have := ih b2 a2 h2
      cases h3
      simp only [List.length_cons]
      omega

/-- The single-quote matcher consumes at least the two quote characters. -/
def tryQuoteMatch_length {cs r4 : List Char} {content : List Char} {lastc : Char}
    (h : tryQuoteMatch cs = some (content, r4, lastc)) : r4.length < cs.length := by
  unfold tryQuoteMatch at h
  split at h
  · cases h
  · rename_i c r2 hr1
    have hlen1 : (c :: r2).length ≤ cs.length := by
      rw [← hr1]; exact (List.dropWhile_suffix _).length_le
    split at h
    · split at h
      · cases h
      · rename_i content2 r3 hsp
        have hlen2 := splitFirst_length [squote] r2 content2 r3 hsp
        split at h
        · rename_i d r5 hr4
          have hlen3 : (d :: r5).length ≤ r3.length := by
            rw [← hr4]; exact (List.dropWhile_suffix _).length_le
          split at h
          · cases h
            simp only [List.length_cons, List.length_singleton] at *
            omega
          · cases h
        · cases h
    · cases h

/-- Repair pass 2 (worker): convert single-quoted tokens in key/value
position into double-quoted tokens (regex at llm_utils.py line 162),
tracking the previous original character for the lookbehind.  The fuel is a
bound on the remaining length (each step consumes at least one character),
letting the definition be structurally recursive. -/
def rpQuotesGo : Nat → Option Char → List Char → List Char
  | 0, _, cs => cs
  | _ + 1, _, [] => []
  | fuel + 1, prev, c :: rest =>
    if (match prev with | some p => openClass p | none => false) then
      match tryQuoteMatch (c :: rest) with
      | some (content, r4, lastc) =>
        dquote :: content ++ dquote :: rpQuotesGo fuel (some lastc) r4
      | none => c :: rpQuotesGo fuel (some c) rest
    else c :: rpQuotesGo fuel (some c) rest

/-- Repair pass 2. -/
def rpQuotes (prev : Option Char) (cs : List Char) : List Char :=
  rpQuotesGo cs.length prev cs

/-- Repair pass 3 (worker): remove trailing commas before a closing brace
or bracket (regex at llm_utils.py line 165); fuel bounds the remaining
length. -/
def rpTrailingGo : Nat → List Char → List Char
  | 0, cs => cs
  | _ + 1, [] => []
  | fuel + 1, c :: rest =>
    if c = ',' then
      match rest.dropWhile isPyWs with
      | d :: r3 =>
        if d = rbrace || d = rbrack then d :: rpTrailingGo fuel r3
        else c :: rpTrailingGo fuel rest
      | [] => c :: rpTrailingGo fuel rest
    else c :: rpTrailingGo fuel rest

/-- Repair pass 3. -/
def rpTrailing (cs : List Char) : List Char :=
  rpTrailingGo cs.length cs

/-- Attempt the bare-key pattern after an opening brace or comma: whitespace,
a nonempty word, whitespace, then a colon (consumed). -/
def tryKey (cs : List Char) : Option (List Char × List Char) :=
  match (cs.dropWhile isPyWs).takeWhile isWordCh with
  | [] => none
  | w0 :: wrest =>
    match ((cs.dropWhile isPyWs).dropWhile isWordCh).dropWhile isPyWs with
    | d :: r4 => if d = ':' then some (w0 :: wrest, r4) else none
    | [] => none

/-- The bare-key matcher consumes at least the word and the colon. -/
def tryKey_length {cs word r4 : List Char} (h : tryKey cs = some (word, r4)) :
    r4.length < cs.length := by
  unfold tryKey at h
  have h1 : (cs.dropWhile isPyWs).length ≤ cs.length := (List.dropWhile_suffix _).length_le
  have h2 : ((cs.dropWhile isPyWs).takeWhile isWordCh).length +
      ((cs.dropWhile isPyWs).dropWhile isWordCh).length = (cs.dropWhile isPyWs).length := by
    rw [← List.length_append, List.takeWhile_append_dropWhile]
  split at h
  · cases h
  · rename_i w0 wrest hw
    split at h
    · rename_i d r5 h4
      have h5 : (d :: r5).length ≤ ((cs.dropWhile isPyWs).dropWhile isWordCh).length := by
        rw [← h4]; exact (List.dropWhile_suffix _).length_le
      split at h
      · cases h
        rw [hw] at h2
        simp only [List.length_cons] at *
        omega
      · cases h
    · cases h

/-- Repair pass 4 (worker): quote bare object keys (regex at llm_utils.py
line 168); fuel bounds the remaining length. -/
def rpKeysGo : Nat → List Char → List Char
  | 0, cs => cs
  | _ + 1, [] => []
  | fuel + 1, c :: rest =>
    if c = lbrace || c = ',' then
      match tryKey rest with
      | some (word, r4) => c :: dquote :: word ++ dquote :: ':' :: rpKeysGo fuel r4
      | none => c :: rpKeysGo fuel rest
    else c :: rpKeysGo fuel rest

/-- Repair pass 4. -/
def rpKeys (cs : List Char) : List Char :=
  rpKeysGo cs.length cs

/-- Is the head of a list a word character (used for the trailing `\b`
boundary of the keyword regexes)? -/
def headIsWord : List Char → Bool
  | [] => false
  | c :: _ => isWordCh c

/-- Repair pass 5 (one keyword, worker): replace word-bounded occurrences
of `kw` by `repl` (regexes at llm_utils.py lines 171-173), tracking the
previous original character for the leading boundary; fuel bounds the
remaining length. -/
def rpKwGo (k0 : Char) (krest : List Char) (repl : List Char) :
    Nat → Option Char → List Char → List Char
  | 0, _, cs => cs
  | _ + 1, _, [] => []
  | fuel + 1, prev, c :: rest =>
    if (match prev with | some p => !(isWordCh p) | none => true) &&
       (k0 :: krest).isPrefixOf (c :: rest) && !(headIsWord (rest.drop krest.length)) then
      repl ++ rpKwGo k0 krest repl fuel (some ((k0 :: krest).getLastD c)) (rest.drop krest.length)
    else c :: rpKwGo k0 krest repl fuel (some c) rest

/-- Repair pass 5 (one keyword). -/
def rpKw (k0 : Char) (krest : List Char) (repl : List Char) (prev : Option Char)
    (cs : List Char) : List Char :=
  rpKwGo k0 krest repl cs.length prev cs

/-- Number of double quotes in a list (for the string-interior lookahead of
the newline repair). -/
def countDq (cs : List Char) : Nat := cs.countP (fun c => c = dquote)

/-- Repair pass 6: escape raw newlines that occur at a position followed by
an odd number of double quotes, i.e. inside a string literal (regex at
llm_utils.py line 176), unless preceded by a backslash. -/
def rpNewlines (prev : Option Char) (cs : List Char) : List Char :=
  match cs with
  | [] => []
  | c :: rest =>
    if c = Char.ofNat 10 && prev ≠ some bslash && countDq rest % 2 = 1 then
      bslash :: 'n' :: rpNewlines (some c) rest
    else c :: rpNewlines (some c) rest

/-- The function `reparar_json` (llm_utils.py lines 142-178): the six ordered repair
passes. -/
def reparar_json (json_str : String) : String :=
  if json_str = "" then json_str
  else
    let r := rpStrip json_str.data
    let r := rpQuotes none r
    let r := rpTrailing r
    let r := rpKeys r
    let r := rpKw 'T' ['r', 'u', 'e'] ['t', 'r', 'u', 'e'] none r
    let r := rpKw 'F' ['a', 'l', 's', 'e'] ['f', 'a', 'l', 's', 'e'] none r
    let r := rpKw 'N' ['o', 'n', 'e'] ['n', 'u', 'l', 'l'] none r
    let r := rpNewlines none r
    String.mk r

/-- Parsed JSON/Python-literal values.  Numbers keep their source lexeme:
the Python code only ever passes parsed values through to the Pydantic
validator, so no arithmetic on them is modelled (and Python float semantics
are out of scope). -/
inductive JsonVal where
  | jstr (s : String)
  | jnum (lexeme : String)
  | jbool (b : Bool)
  | jnull
  | jarr (items : List JsonVal)
  | jobj (fields : List (String × JsonVal))

/-- JSON whitespace accepted by `json.loads`: space, tab, newline, carriage
return. -/
def isJWs (c : Char) : Bool :=
  c = ' ' || c = Char.ofNat 9 || c = Char.ofNat 10 || c = Char.ofNat 13

/-- JSON two-character escapes. -/
def jEsc (e : Char) : Option Char :=
  if e = dquote then some dquote
  else if e = bslash then some bslash
  else if e = '/' then some '/'
  else if e = 'b' then some (Char.ofNat 8)
  else if e = 'f' then some (Char.ofNat 12)
  else if e = 'n' then some (Char.ofNat 10)
  else if e = 'r' then some (Char.ofNat 13)
  else if e = 't' then some (Char.ofNat 9)
  else none

/-- Hexadecimal digit value. -/
def hexVal (c : Char) : Option Nat :=
  if c ≥ '0' && c ≤ '9' then some (c.toNat - 48)
  else if c ≥ 'a' && c ≤ 'f' then some (c.toNat - 87)
  else if c ≥ 'A' && c ≤ 'F' then some (c.toNat - 55)
  else none

/-- Body of a double-quoted JSON string (after the opening quote): returns
the decoded characters and the remainder after the closing quote.  Raw
control characters are rejected, as by `json.loads` in strict mode. -/
def jstrBody : List Char → Option (List Char × List Char)
  | [] => none
  | c :: rest =>
    if c = dquote then some ([], rest)
    else if c = bslash then
      match rest with
      | [] => none
      | e :: rest2 =>
        if e = 'u' then
          match rest2 with
          | h1 :: h2 :: h3 :: h4 :: rest3 =>
            match hexVal h1, hexVal h2, hexVal h3, hexVal h4 with
            | some a, some b, some c2, some d =>
              (jstrBody rest3).map (fun p => (Char.ofNat (((a * 16 + b) * 16 + c2) * 16 + d) :: p.1, p.2))
            | _, _, _, _ => none
          | _ => none
        else
          match jEsc e with
          | some ec => (jstrBody rest2).map (fun p => (ec :: p.1, p.2))
          | none => none
    else if c.toNat < 32 then none
    else (jstrBody rest).map (fun p => (c :: p.1, p.2))

/-- Fraction part of a JSON number: a dot followed by at least one digit. -/
def scanFracPart : List Char → Option (List Char × List Char)
  | c :: rest =>
    if c = '.' then
      match rest.takeWhile Char.isDigit with
      | [] => none
      | d :: ds => some (c :: d :: ds, rest.dropWhile Char.isDigit)
    else none
  | [] => none

/-- Exponent part of a JSON number. -/
def scanExpPart : List Char → Option (List Char × List Char)
  | e :: rest =>
    if e = 'e' || e = 'E' then
      let signAndRest : List Char × List Char :=
        match rest with
        | s :: r => if s = '+' || s = '-' then ([s], r) else ([], s :: r)
        | [] => ([], [])
      match (signAndRest.2).takeWhile Char.isDigit with
      | [] => none
      | d :: ds => some (e :: signAndRest.1 ++ d :: ds, (signAndRest.2).dropWhile Char.isDigit)
    else none
  | [] => none

/-- Lexeme of a JSON number: `-? (0 | [1-9][0-9]*) frac? exp?`. -/
def scanJNum (cs : List Char) : Option (List Char × List Char) :=
  let negAndRest : List Char × List Char :=
    match cs with
    | c :: rest => if c = '-' then ([c], rest) else ([], c :: rest)
    | [] => ([], [])
  match negAndRest.2 with
  | [] => none
  | c :: rest =>
    let intAndRest : Option (List Char × List Char) :=
      if c = '0' then some ([c], rest)
      else if c.isDigit then some ((c :: rest).takeWhile Char.isDigit, (c :: rest).dropWhile Char.isDigit)
      else none
    match intAndRest with
    | none => none
    | some (ip, r2) =>
      let fracAndRest : List Char × List Char :=
        match scanFracPart r2 with
        | some p => p
        | none => ([], r2)
      let expAndRest : List Char × List Char :=
        match scanExpPart fracAndRest.2 with
        | some p => p
        | none => ([], fracAndRest.2)
      some (negAndRest.1 ++ ip ++ fracAndRest.1 ++ expAndRest.1, expAndRest.2)

/-- Insert a key into a parsed object with Python `dict` semantics: a
duplicate key overwrites the earlier value in place. -/
def objAdd (acc : List (String × JsonVal)) (k : String) (v : JsonVal) : List (String × JsonVal) :=
  if acc.any (fun p => p.1 = k) then acc.map (fun p => if p.1 = k then (k, v) else p)
  else acc ++ [(k, v)]

/-- Parser modes of the recursive-descent `json.loads` grammar: one value,
an object body after its opening brace, object members with the fields
accumulated so far, an array body after its opening bracket, array items
with the values accumulated so far. -/
inductive JMode where
  | val
  | objStart
  | objMembers (acc : List (String × JsonVal))
  | arrStart
  | arrItems (acc : List JsonVal)

/-- Fuel-indexed recursive-descent parser for the grammar of `json.loads`;
returns the parsed value and the unconsumed remainder. -/
def parseJ : Nat → JMode → List Char → Option (JsonVal × List Char)
  | 0, _, _ => none
  | fuel + 1, .val, cs0 =>
    (match cs0.dropWhile isJWs with
     | [] => none
     | c :: rest =>
       if c = dquote then (jstrBody rest).map (fun p => (.jstr (String.mk p.1), p.2))
       else if c = lbrace then parseJ fuel .objStart rest
       else if c = lbrack then parseJ fuel .arrStart rest
       else if c = 't' then
         if ['r', 'u', 'e'].isPrefixOf rest then some (.jbool true, rest.drop 3) else none
       else if c = 'f' then
         if ['a', 'l', 's', 'e'].isPrefixOf rest then some (.jbool false, rest.drop 4) else none
       else if c = 'n' then
         if ['u', 'l', 'l'].isPrefixOf rest then some (.jnull, rest.drop 3) else none
       else if c = '-' || c.isDigit then
         (scanJNum (c :: rest)).map (fun p => (.jnum (String.mk p.1), p.2))
       else none)
  | fuel + 1, .objStart, cs =>
    (match cs.dropWhile isJWs with
     | [] => none
     | c :: rest =>
       if c = rbrace then some (.jobj [], rest)
       else parseJ fuel (.objMembers []) (c :: rest))
  | fuel + 1, .objMembers acc, cs =>
    (match cs.dropWhile isJWs with
     | [] => none
     | c :: rest =>
       if c = dquote then
         match jstrBody rest with
         | some (k, r2) =>
           (match r2.dropWhile isJWs with
            | d :: r3 =>
              if d = ':' then
                match parseJ fuel .val r3 with
                | some (v, r4) =>
                  (match r4.dropWhile isJWs with
                   | e :: r5 =>
                     if e = ',' then parseJ fuel (.objMembers (objAdd acc (String.mk k) v)) r5
                     else if e = rbrace then some (.jobj (objAdd acc (String.mk k) v), r5)
                     else none
                   | [] => none)
                | none => none
              else none
            | [] => none)
         | none => none
       else none)
  | fuel + 1, .arrStart, cs =>
    (match cs.dropWhile isJWs with
     | [] => none
     | c :: rest =>
       if c = rbrack then some (.jarr [], rest)
       else parseJ fuel (.arrItems []) (c :: rest))
  | fuel + 1, .arrItems acc, cs =>
    (match parseJ fuel .val cs with
     | some (v, r2) =>
       (match r2.dropWhile isJWs with
        | e :: r3 =>
          if e = ',' then parseJ fuel (.arrItems (acc ++ [v])) r3
          else if e = rbrack then some (.jarr (acc ++ [v]), r3)
          else none
        | [] => none)
     | none => none)

/-- Python `json.loads`: parse a complete JSON document, requiring the whole input
(up to trailing whitespace) to be consumed. -/
def jsonLoads (s : String) : Option JsonVal :=
  match parseJ (2 * s.data.length + 8) .val s.data with
  | some (v, rest) => if rest.dropWhile isJWs = [] then some v else none
  | none => none

/-- Python string-literal escapes modelled for `ast.literal_eval`. -/
def pyEsc (e : Char) : Option Char :=
  if e = squote then some squote
  else if e = dquote then some dquote
  else if e = bslash then some bslash
  else if e = 'n' then some (Char.ofNat 10)
  else if e = 't' then some (Char.ofNat 9)
  else if e = 'r' then some (Char.ofNat 13)
  else if e = 'b' then some (Char.ofNat 8)
  else if e = 'f' then some (Char.ofNat 12)
  else if e = '0' then some (Char.ofNat 0)
  else none

/-- Body of a Python string literal delimited by `q` (single or double
quote); raw newlines are not allowed in a single-line literal. -/
def pyStrBody (q : Char) : List Char → Option (List Char × List Char)
  | [] => none
  | c :: rest =>
    if c = q then some ([], rest)
    else if c = bslash then
      match rest with
      | [] => none
      | e :: rest2 =>
        match pyEsc e with
        | some ec => (pyStrBody q rest2).map (fun p => (ec :: p.1, p.2))
        | none => none
    else if c = Char.ofNat 10 then none
    else (pyStrBody q rest).map (fun p => (c :: p.1, p.2))

/-- Lexeme of a Python numeric literal: optional sign, digits, optional
fraction and exponent (a strict subset of Python number syntax, sufficient
for LLM output). -/
def scanPyNum (cs : List Char) : Option (List Char × List Char) :=
  let signAndRest : List Char × List Char :=
    match cs with
    | c :: rest => if c = '-' || c = '+' then ([c], rest) else ([], c :: rest)
    | [] => ([], [])
  match (signAndRest.2).takeWhile Char.isDigit with
  | [] => none
  | d :: ds =>
    let r2 := (signAndRest.2).dropWhile Char.isDigit
    let fracAndRest : List Char × List Char :=
      match scanFracPart r2 with
      | some p => p
      | none => ([], r2)
    let expAndRest : List Char × List Char :=
      match scanExpPart fracAndRest.2 with
      | some p => p
      | none => ([], fracAndRest.2)
    some (signAndRest.1 ++ d :: ds ++ fracAndRest.1 ++ expAndRest.1, expAndRest.2)

/-- Parser modes of the Python-literal grammar, mirroring `JMode`. -/
inductive PMode where
  | val
  | dictStart
  | dictMembers (acc : List (String × JsonVal))
  | listStart
  | listItems (acc : List JsonVal)

/-- One Python literal for the `ast.literal_eval` fallback of
`parsear_json_seguro` (llm_utils.py lines 212-218).  `ast.literal_eval` is
Python standard-library code (an external collaborator of this layer); it is
modelled as a parser for the Python literal grammar restricted to strings
(single- or double-quoted), numbers, `True`/`False`/`None`, lists (with
trailing commas), and dicts with string keys (with trailing commas) — the
shapes LLM output can take.  Tuples, sets, non-string dict keys and exotic
escapes are conservatively rejected (modelled as the eval failing). -/
def parsePy : Nat → PMode → List Char → Option (JsonVal × List Char)
  | 0, _, _ => none
  | fuel + 1, .val, cs0 =>
    (match cs0.dropWhile isJWs with
     | [] => none
     | c :: rest =>
       if c = dquote then (pyStrBody dquote rest).map (fun p => (.jstr (String.mk p.1), p.2))
       else if c = squote then (pyStrBody squote rest).map (fun p => (.jstr (String.mk p.1), p.2))
       else if c = lbrace then parsePy fuel .dictStart rest
       else if c = lbrack then parsePy fuel .listStart rest
       else if c = 'T' then
         if ['r', 'u', 'e'].isPrefixOf rest then some (.jbool true, rest.drop 3) else none
       else if c = 'F' then
         if ['a', 'l', 's', 'e'].isPrefixOf rest then some (.jbool false, rest.drop 4) else none
       else if c = 'N' then
         if ['o', 'n', 'e'].isPrefixOf rest then some (.jnull, rest.drop 3) else none
       else if c = '-' || c = '+' || c.isDigit then
         (scanPyNum (c :: rest)).map (fun p => (.jnum (String.mk p.1), p.2))
       else none)
  | fuel + 1, .dictStart, cs =>
    (match cs.dropWhile isJWs with
     | [] => none
     | c :: rest =>
       if c = rbrace then some (.jobj [], rest)
       else parsePy fuel (.dictMembers []) (c :: rest))
  | fuel + 1, .dictMembers acc, cs =>
    (match cs.dropWhile isJWs with
     | [] => none
     | c :: rest =>
       if c = dquote || c = squote then
         match pyStrBody (if c = dquote then dquote else squote) rest with
         | some (k, r2) =>
           (match r2.dropWhile isJWs with
            | d :: r3 =>
              if d = ':' then
                match parsePy fuel .val r3 with
                | some (v, r4) =>
                  (match r4.dropWhile isJWs with
                   | e :: r5 =>
                     if e = ',' then
                       match r5.dropWhile isJWs with
                       | f :: r6 =>
                         if f = rbrace then some (.jobj (objAdd acc (String.mk k) v), r6)
                         else parsePy fuel (.dictMembers (objAdd acc (String.mk k) v)) (f :: r6)
                       | [] => none
                     else if e = rbrace then some (.jobj (objAdd acc (String.mk k) v), r5)
                     else none
                   | [] => none)
                | none => none
              else none
            | [] => none)
         | none => none
       else none)
  | fuel + 1, .listStart, cs =>
    (match cs.dropWhile isJWs with
     | [] => none
     | c :: rest =>
       if c = rbrack then some (.jarr [], rest)
       else parsePy fuel (.listItems []) (c :: rest))
  | fuel + 1, .listItems acc, cs =>
    (match parsePy fuel .val cs with
     | some (v, r2) =>
       (match r2.dropWhile isJWs with
        | e :: r3 =>
          if e = ',' then
            match r3.dropWhile isJWs with
            | f :: r4 =>
              if f = rbrack then some (.jarr (acc ++ [v]), r4)
              else parsePy fuel (.listItems (acc ++ [v])) (f :: r4)
            | [] => none
          else if e = rbrack then some (.jarr (acc ++ [v]), r3)
          else none
        | [] => none)
     | none => none)

/-- Python `ast.literal_eval` on a complete input (whole string consumed up to
whitespace), returning `none` when it would raise `ValueError` or
`SyntaxError` — exactly the exceptions swallowed at llm_utils.py line 217. -/
def literalEval (s : String) : Option JsonVal :=
  match parsePy (2 * s.data.length + 8) .val s.data with
  | some (v, rest) => if rest.dropWhile isJWs = [] then some v else none
  | none => none

/-- The function `parsear_json_seguro` (llm_utils.py lines 181-220): extract, then try a
direct `json.loads`, then repair and retry, then fall back to
`ast.literal_eval` on the unrepaired candidate. -/
def parsear_json_seguro (texto : String) : Option JsonVal :=
  if texto = "" then none
  else
    match extraer_json_de_respuesta texto with
    | none => none
    | some json_str =>
      match jsonLoads json_str with
      | some v => some v
      | none =>
        match jsonLoads (reparar_json json_str) with
        | some v => some v
        | none => literalEval json_str

/-- A Pydantic model: `validate` is `modelo(**data)` on a keyword dict,
returning `none` where Pydantic would raise `ValidationError`. -/
structure PModel (α : Type) where
  validate : List (String × JsonVal) → Option α

/-- Python-level errors that flow through the orchestrator's `except`
arms.  `backendError` is an exception raised by `llm.invoke`; its
`quotaShaped` flag abstracts the backend-specific quota/billing markers
(HTTP 429 + insufficient-quota message, 401/403) that the classification
helper looks for. -/
inductive PyErr where
  | keyError (name : String)
  | valueError (msg : String)
  | typeError
  | backendError (quotaShaped : Bool) (msg : String)
deriving DecidableEq

/-- Modelled from the spec: `is_openai_quota_error` is imported from
`llm_utils` by `llm_provider.py` (line 342) but its definition is not under
src/.  Spec section 4.6: classification inspects the error for markers of
quota/billing exhaustion or authentication rejection; such markers can only
occur on errors raised by the backend itself, so the helper recognizes
exactly the quota-shaped backend errors, and the orchestrator-raised
`KeyError`/`ValueError`/`TypeError` are never terminal. -/
def is_openai_quota_error : PyErr → Bool
  | .backendError q _ => q
  | _ => false

/-- The `if valores_default:` fallback inside `parsear_pydantic_seguro`
(llm_utils.py lines 246-252 and 259-263): Python truthiness makes `None`
and the empty dict skip the fallback; `ValidationError` from the default
itself yields `None`. -/
def defaultsTry {α : Type} (modelo : PModel α) (valores_default : Option (List (String × JsonVal))) :
    Option α :=
  match valores_default with
  | some d => if d.isEmpty then none else modelo.validate d
  | none => none

/-- The function `parsear_pydantic_seguro` (llm_utils.py lines 223-264).  The `Except`
layer carries the `TypeError` that `modelo(**data)` raises when the parsed
JSON is not an object (only `ValidationError` is caught by the source). -/
def parsear_pydantic_seguro {α : Type} (texto : String) (modelo : PModel α)
    (valores_default : Option (List (String × JsonVal))) : Except PyErr (Option α) :=
  if texto = "" then .ok (defaultsTry modelo valores_default)
  else
    match parsear_json_seguro texto with
    | none => .ok (defaultsTry modelo valores_default)
    | some (.jobj fields) =>
      match modelo.validate fields with
      | some v => .ok (some v)
      | none => .ok (defaultsTry modelo valores_default)
    | some _ => .error .typeError

/-- Modelled from the spec: the tier-1 parser used by the orchestrator is
LangChain's `PydanticOutputParser.parse` (external library code, an
out-of-scope collaborator per spec section 1).  Spec section 4.5 tier 1
describes it as a strict schema-aware parse of the raw text, handling the
case where the backend already returned clean JSON; it returns a value only
when the raw text is strict JSON for an object that validates. -/
def parser_parse {α : Type} (texto : String) (modelo : PModel α) : Option α :=
  match jsonLoads texto with
  | some (.jobj fields) => modelo.validate fields
  | _ => none

/-- The class `RetryConfig` (llm_utils.py lines 267-302), with delays as exact
rationals (the concrete delays of the spec are all exactly representable
binary floats, on which Python float arithmetic is exact). -/
structure RetryConfig where
  max_retries : Nat
  initial_delay : ℚ
  max_delay : ℚ
  exponential_base : ℚ
  jitter : Bool

/-- The method `RetryConfig.get_delay` (llm_utils.py lines 292-302).  `r` models the
`random.random()` sample in `[0, 1)` consumed when jitter is enabled. -/
def RetryConfig.get_delay (cfg : RetryConfig) (intento : Nat) (r : ℚ) : ℚ :=
  let delay := cfg.initial_delay * cfg.exponential_base ^ intento
  let delay := min delay cfg.max_delay
  if cfg.jitter then delay * (1/2 + r) else delay

/-- One item of a prompt template: literal text or a `name`-placeholder. -/
inductive TItem where
  | lit (s : String)
  | var (name : String)
deriving DecidableEq

/-- The call `PromptTemplate.format(**input_data)` as made at llm_provider.py line
351: substitute each placeholder from the merged bindings (input data over
partial variables), raising `KeyError` on the first unbound placeholder —
Python `str.format` semantics, the literal `\x7bname\x7d` is never left in
the output. -/
def formatTemplate (t : List TItem) (binds : List (String × String)) : Except PyErr String :=
  match t with
  | [] => .ok ""
  | .lit s :: rest => (formatTemplate rest binds).map (fun out => s ++ out)
  | .var n :: rest =>
    match binds.lookup n with
    | some v => (formatTemplate rest binds).map (fun out => v ++ out)
    | none => .error (.keyError n)

/-- The result of one `llm.invoke` round trip: returned text (the message
`content`) or a raised backend exception. -/
inductive BackendResult where
  | ok (content : String)
  | raise (e : PyErr)
deriving DecidableEq

/-- A backend run: the response of each attempt, indexed by the 0-based
attempt number. -/
def Backend : Type := Nat → BackendResult

/-- Errors escaping `RobustStructuredChain.invoke`:
`quotaExhausted` models `LLMQuotaExhaustedError` (terminal, with its
remediation-hint message), `retryExhausted` models `LLMRetryExhaustedError`
carrying the last underlying error and the last raw response. -/
inductive InvokeErr where
  | quotaExhausted (msg : String)
  | retryExhausted (lastErr : Option PyErr) (lastResp : Option String)
deriving DecidableEq

/-- The remediation-hint message of the terminal error (llm_provider.py
lines 385-389). -/
def quotaHint : String :=
  "OPENAI_QUOTA_EXHAUSTED: Tu API key de OpenAI no tiene créditos disponibles. " ++
  "Agrega fondos en https://platform.openai.com/account/billing " ++
  "o cambia al modo de IA local (Ollama) en la configuración."

/-- Outcome of one iteration of the retry loop: the raised error or the
returned value, whether `ultima_respuesta` was assigned (the backend
returned text), whether the backend was called, and whether the parsing
stage was reached. -/
structure AttemptOut (α : Type) where
  res : Except PyErr α
  resp : Option String
  called : Bool
  parsed : Bool

/-- The body of the `try` block of one loop iteration of
`RobustStructuredChain.invoke` (llm_provider.py lines 349-380), with the
raised exception as the `Except` error: format the prompt, call the
backend, reject empty responses, try the LangChain parser, then the robust
manual parse, optionally its default, else raise. -/
def attemptOnce {α : Type} (fmtRes : Except PyErr String) (resp : BackendResult)
    (modelo : PModel α) (default_value : Option (List (String × JsonVal))) : AttemptOut α :=
  match fmtRes with
  | .error e => ⟨.error e, none, false, false⟩
  | .ok _ =>
    match resp with
    | .raise e => ⟨.error e, none, true, false⟩
    | .ok texto =>
      if pstrip texto = "" then
        ⟨.error (.valueError "Respuesta vacía del LLM"), some texto, true, false⟩
      else
        match parser_parse texto modelo with
        | some v => ⟨.ok v, some texto, true, true⟩
        | none =>
          match parsear_pydantic_seguro texto modelo default_value with
          | .error e => ⟨.error e, some texto, true, true⟩
          | .ok (some r) => ⟨.ok r, some texto, true, true⟩
          | .ok none =>
            ⟨.error (.valueError ("No se pudo parsear respuesta: " ++ takeStr 200 texto ++ "...")),
             some texto, true, true⟩

/-- The `ultima_respuesta` update: it is overwritten only when the backend
returned text on this attempt. -/
def updResp (old : Option String) : Option String → Option String
  | some t => some t
  | none => old

/-- Aggregate outcome of `invoke`: the result, the number of loop
iterations (attempts), of backend calls, of iterations that reached the
parsing stage, and the list of backoff sleeps performed between attempts
(the source performs none: its retry branch at llm_provider.py lines
394-395 only logs, it never calls `time.sleep` and never calls
`RetryConfig.get_delay`). -/
structure InvokeOut (α : Type) where
  result : Except InvokeErr α
  nAttempts : Nat
  nLlmCalls : Nat
  nParseTries : Nat
  sleeps : List ℚ

/-- Epilogue after loop exhaustion (llm_provider.py lines 397-410): try the
caller default (any exception silently discarded), else raise
`LLMRetryExhaustedError` carrying the last error and last raw response. -/
def afterLoop {α : Type} (modelo : PModel α) (default_value : Option (List (String × JsonVal)))
    (lastErr : Option PyErr) (lastResp : Option String) : Except InvokeErr α :=
  match default_value with
  | some d =>
    match modelo.validate d with
    | some v => .ok v
    | none => .error (.retryExhausted lastErr lastResp)
  | none => .error (.retryExhausted lastErr lastResp)

/-- A `Bool.toNat` shorthand for the instrumentation counters. -/
def cnt (b : Bool) : Nat := if b then 1 else 0

/-- The retry loop of `RobustStructuredChain.invoke` (llm_provider.py lines
348-410), by recursion on the remaining attempt budget `rem`
(`retries + 1 - intento`): run one attempt; on success return immediately;
on a quota-shaped error raise `LLMQuotaExhaustedError` immediately; on any
other error record it and loop, with no sleep in between; after the loop
apply the default or raise. -/
def invokeLoop {α : Type} (fmtRes : Except PyErr String) (backend : Backend) (modelo : PModel α)
    (default_value : Option (List (String × JsonVal))) :
    Nat → Nat → Option PyErr → Option String → InvokeOut α
  | 0, _, lastErr, lastResp =>
    ⟨afterLoop modelo default_value lastErr lastResp, 0, 0, 0, []⟩
  | rem + 1, intento, lastErr, lastResp =>
    let a := attemptOnce fmtRes (backend intento) modelo default_value
    match a.res with
    | .ok v => ⟨.ok v, 1, cnt a.called, cnt a.parsed, []⟩
    | .error e =>
      if is_openai_quota_error e then
        ⟨.error (.quotaExhausted quotaHint), 1, cnt a.called, cnt a.parsed, []⟩
      else
        let r := invokeLoop fmtRes backend modelo default_value rem (intento + 1) (some e)
          (updResp lastResp a.resp)
        ⟨r.result, r.nAttempts + 1, r.nLlmCalls + cnt a.called, r.nParseTries + cnt a.parsed,
         r.sleeps⟩

/-- The class `RobustStructuredChain` (llm_provider.py lines 292-326), as built by
`crear_chain_estructurado_robusto`: the prompt template with its partial
variables (including `format_instructions`), the Pydantic model, and the
constructor-default retry budget. -/
structure RobustStructuredChain (α : Type) where
  template : List TItem
  partialVars : List (String × String)
  modelo : PModel α
  max_retries : Nat

/-- The method `RobustStructuredChain.invoke` (llm_provider.py lines 328-410). -/
def RobustStructuredChain.invoke {α : Type} (ch : RobustStructuredChain α) (backend : Backend)
    (input_data : List (String × String)) (default_value : Option (List (String × JsonVal)))
    (mr : Option Nat) : InvokeOut α :=
  let retries := mr.getD ch.max_retries
  invokeLoop (formatTemplate ch.template (input_data ++ ch.partialVars)) backend ch.modelo
    default_value (retries + 1) 0 none none

/-- Effect-free mirror of `scanCierre`: run the bracket counter over a list
returning the final state, or `none` if it would stop (a closing bracket
bringing the level to zero).  Used to reason compositionally about the
scanner. -/
def scanFree (copen cclose : Char) : List Char → Int → Bool → Bool → Option (Int × Bool × Bool)
  | [], nivel, enStr, esc => some (nivel, enStr, esc)
  | c :: rest, nivel, enStr, esc =>
    if esc then scanFree copen cclose rest nivel enStr false
    else if c = bslash then scanFree copen cclose rest nivel enStr true
    else if c = dquote then scanFree copen cclose rest nivel (!enStr) esc
    else if !enStr && c = copen then scanFree copen cclose rest (nivel + 1) enStr esc
    else if !enStr && c = cclose then
      if nivel - 1 = 0 then none
      else scanFree copen cclose rest (nivel - 1) enStr esc
    else scanFree copen cclose rest nivel enStr esc

/-- JSON string-body escaping: double quotes and backslashes are
backslash-escaped, every other character is kept. -/
def escJList : List Char → List Char
  | [] => []
  | c :: rest => (if c = dquote || c = bslash then [bslash, c] else [c]) ++ escJList rest

/-- One serialized object field: a double-quoted key, a colon, a space, and
a double-quoted value. -/
def serField (k v : List Char) : List Char :=
  [dquote] ++ escJList k ++ [dquote, ':', ' ', dquote] ++ escJList v ++ [dquote]

/-- Serialized fields, comma-and-space-separated. -/
def serFields : List (List Char × List Char) → List Char
  | [] => []
  | f :: rest => serField f.1 f.2 ++ (if rest.isEmpty then [] else [',', ' ']) ++ serFields rest

/-- A serialized flat JSON object with string keys and string values. -/
def serObj (fs : List (List Char × List Char)) : List Char :=
  lbrace :: serFields fs ++ [rbrace]

/-- The final value of `ultima_respuesta` after `rem` further attempts
starting at attempt `intento`, when the backend response of attempt `n`
assigns `rsp n`. -/
def respAfter (rsp : Nat → Option String) : Nat → Nat → Option String → Option String
  | 0, _, lr => lr
  | rem + 1, intento, lr => respAfter rsp rem (intento + 1) (updResp lr (rsp intento))

/-- A concrete Pydantic model with one required string field `label`
(the schema of the spec's end-to-end scenario). -/
def labelModel : PModel String :=
  ⟨fun fields =>
    match fields.lookup "label" with
    | some (.jstr s) => some s
    | _ => none⟩

/-- A one-character string holding a single quote. -/
def sglq : String := String.mk [squote]

/-- The backend response of the spec's end-to-end scenario: prose, then a
tagged fenced block holding a single-quoted JSON object. -/
def resp7 : String :=
  "Sure! ```json\n\x7b" ++ sglq ++ "label" ++ sglq ++ ": " ++ sglq ++ "Beach Sunset" ++ sglq ++
  "\x7d\n```"

/-- The chain of the end-to-end scenario: template `Label: \x7bkw\x7d` (with
the `format_instructions` partial variable that
`crear_chain_estructurado_robusto` always injects) and the `label` schema. -/
def ch7 : RobustStructuredChain String :=
  ⟨[.lit "Label: ", .var "kw"], [("format_instructions", "fi")], labelModel, 3⟩

/-- A chain whose template has the single unbound placeholder `name`. -/
def ch4 : RobustStructuredChain String :=
  ⟨[.var "name"], [], labelModel, 3⟩

/-! ## General lemmas about the retry loop -/

/-- The retry loop performs no backoff sleep whatsoever: the transient
branch of the source only logs (llm_provider.py lines 391-395). -/
theorem invokeLoop_sleeps_nil {α : Type} (fmtRes : Except PyErr String) (backend : Backend)
    (modelo : PModel α) (dv : Option (List (String × JsonVal))) :
    ∀ rem intento le lr, (invokeLoop fmtRes backend modelo dv rem intento le lr).sleeps = [] := by
  intro rem
  induction rem with
  | zero => intro intento le lr; rfl
  | succ n ih =>
    intro intento le lr
    rcases hA : attemptOnce fmtRes (backend intento) modelo dv with ⟨res, rsp, ca, pa⟩
    rcases res with e | v
    · by_cases hq : is_openai_quota_error e
      · simp [invokeLoop, hA, hq]
      · simp [invokeLoop, hA, hq, ih]
    · simp [invokeLoop, hA]

/-- When every attempt fails with a non-quota error, the loop runs through
its whole budget and ends in the epilogue, with the recorded last error and
last response and no sleeps. -/
theorem invokeLoop_fail {α : Type} (fmtRes : Except PyErr String) (backend : Backend)
    (modelo : PModel α) (dv : Option (List (String × JsonVal)))
    (er : Nat → PyErr) (rsp : Nat → Option String) (ca pa : Bool)
    (hA : ∀ n, attemptOnce fmtRes (backend n) modelo dv = ⟨.error (er n), rsp n, ca, pa⟩)
    (hQ : ∀ n, is_openai_quota_error (er n) = false) :
    ∀ rem intento le lr,
      invokeLoop fmtRes backend modelo dv (rem + 1) intento le lr =
        ⟨afterLoop modelo dv (some (er (intento + rem))) (respAfter rsp (rem + 1) intento lr),
         rem + 1, (rem + 1) * cnt ca, (rem + 1) * cnt pa, []⟩ := by
  intro rem
  induction rem with
  | zero =>
    intro intento le lr
    simp [invokeLoop, hA intento, hQ intento, respAfter]
  | succ n ih =>
    intro intento le lr
    have harith : intento + 1 + n = intento + (n + 1) := by omega
    rw [invokeLoop]
    simp only [hA intento, hQ intento, Bool.false_eq_true, if_false]
    rw [ih (intento + 1) (some (er intento)) (updResp lr (rsp intento))]
    simp [InvokeOut.mk.injEq, respAfter, harith, Nat.succ_mul]

/-- The variable `ultima_respuesta` is untouched by attempts that never reach the
backend-response assignment. -/
theorem respAfter_none : ∀ rem intento lr, respAfter (fun _ => none) rem intento lr = lr := by
  intro rem
  induction rem with
  | zero => intro intento lr; rfl
  | succ n ih => intro intento lr; simp [respAfter, updResp, ih]

/-- When every attempt records a response, `ultima_respuesta` ends as the
response of the last attempt. -/
theorem respAfter_some (s : Nat → String) :
    ∀ rem intento lr, 0 < rem →
      respAfter (fun n => some (s n)) rem intento lr = some (s (intento + rem - 1)) := by
  intro rem
  induction rem with
  | zero => intro intento lr h; omega
  | succ n ih =>
    intro intento lr _
    rcases n with _ | m
    · simp [respAfter, updResp]
    · have := ih (intento + 1) (some (s intento)) (by omega)
      simp only [respAfter, updResp] at this ⊢
      rw [this]
      have : intento + 1 + (m + 1) - 1 = intento + (m + 1 + 1) - 1 := by omega
      simp [this]

/-- A formatting failure makes the whole attempt fail before the backend is
reached. -/
theorem attemptOnce_fmt_error {α : Type} (modelo : PModel α)
    (dv : Option (List (String × JsonVal))) (e : PyErr) (resp : BackendResult) :
    attemptOnce (.error e) resp modelo dv = ⟨.error e, none, false, false⟩ := rfl

/-- A raising backend makes the attempt fail with that exception, after the
call but before parsing. -/
theorem attemptOnce_raise {α : Type} (modelo : PModel α)
    (dv : Option (List (String × JsonVal))) (p : String) (e : PyErr) :
    attemptOnce (.ok p) (.raise e) modelo dv = ⟨.error e, none, true, false⟩ := rfl

/-- An empty or whitespace-only response fails the attempt with the
empty-response `ValueError`, before any parsing. -/
theorem attemptOnce_empty {α : Type} (modelo : PModel α)
    (dv : Option (List (String × JsonVal))) (p t : String) (hp : pstrip t = "") :
    attemptOnce (.ok p) (.ok t) modelo dv =
      ⟨.error (.valueError "Respuesta vacía del LLM"), some t, true, false⟩ := by
  simp [attemptOnce, hp]

/-- A response on which both the strict parser and the tolerant JSON
pipeline fail resolves through `defaultsTry`. -/
theorem attemptOnce_garbage {α : Type} (modelo : PModel α)
    (dv : Option (List (String × JsonVal))) (p t : String) (hne : pstrip t ≠ "")
    (hpp : parser_parse t modelo = none) (hjs : parsear_json_seguro t = none) :
    attemptOnce (.ok p) (.ok t) modelo dv =
      (match defaultsTry modelo dv with
       | some r => ⟨.ok r, some t, true, true⟩
       | none =>
         ⟨.error (.valueError ("No se pudo parsear respuesta: " ++ takeStr 200 t ++ "...")),
          some t, true, true⟩) := by
  have ht : t ≠ "" := by
    intro h0
    exact hne (by rw [h0]; rfl)
  simp only [attemptOnce, hne, if_neg, hpp, parsear_pydantic_seguro, ht, hjs]
  rcases defaultsTry modelo dv with _ | r <;> simp

/-! ## Claim theorems -/

/-- Claim C9: for the policy `(initial_delay=1, max_delay=30, multiplier=2,
jitter=false)`, `get_delay` at attempts 0, 1, 2 is exactly 1, 2, 4; with
`max_delay=3` the attempt-2 delay clamps to 3; in general the delay is
`min(initial_delay * base^k, max_delay)`, scaled by `0.5 + random()` — a
uniform factor in `[0.5, 1.5)` — exactly when jitter is enabled. -/
theorem C9_backoff_delays :
    (∀ r : ℚ, RetryConfig.get_delay ⟨3, 1, 30, 2, false⟩ 0 r = 1) ∧
    (∀ r : ℚ, RetryConfig.get_delay ⟨3, 1, 30, 2, false⟩ 1 r = 2) ∧
    (∀ r : ℚ, RetryConfig.get_delay ⟨3, 1, 30, 2, false⟩ 2 r = 4) ∧
    (∀ r : ℚ, RetryConfig.get_delay ⟨3, 1, 3, 2, false⟩ 2 r = 3) ∧
    (∀ (cfg : RetryConfig) (k : Nat) (r : ℚ), cfg.jitter = false →
      cfg.get_delay k r = min (cfg.initial_delay * cfg.exponential_base ^ k) cfg.max_delay) ∧
    (∀ (cfg : RetryConfig) (k : Nat) (r : ℚ), cfg.jitter = true → 0 ≤ r → r < 1 →
      cfg.get_delay k r =
        min (cfg.initial_delay * cfg.exponential_base ^ k) cfg.max_delay * (1/2 + r) ∧
      1/2 ≤ 1/2 + r ∧ 1/2 + r < 3/2) := by
  refine ⟨?_, ?_, ?_, ?_, ?_, ?_⟩
  · intro r; simp [RetryConfig.get_delay]
  · intro r; simp [RetryConfig.get_delay]; norm_num
  · intro r; simp [RetryConfig.get_delay]; norm_num
  · intro r; simp [RetryConfig.get_delay]; norm_num
  · intro cfg k r h; simp [RetryConfig.get_delay, h]
  · intro cfg k r h h0 h1
    refine ⟨by simp [RetryConfig.get_delay, h], by linarith, by linarith⟩

/-- Claim C9 witness: the clamped-delay conjunct and the jitter conjunct at
concrete inputs. -/
theorem C9_backoff_delays_witness :
    RetryConfig.get_delay ⟨3, 1, 30, 2, false⟩ 5 0 = 30 ∧
    RetryConfig.get_delay ⟨3, 1, 2, 2, true⟩ 3 (1/4) = 3/2 := by
  constructor
  · rw [C9_backoff_delays.2.2.2.2.1 ⟨3, 1, 30, 2, false⟩ 5 0 rfl]
    norm_num
  · rw [(C9_backoff_delays.2.2.2.2.2 ⟨3, 1, 2, 2, true⟩ 3 (1/4) rfl (by norm_num) (by norm_num)).1]
    norm_num

/-- Claim C2: a backend that always raises a quota-shaped (terminal) error
makes `invoke` perform exactly one attempt — regardless of the remaining
retry budget — and raise the distinguished terminal error with its
remediation hint. -/
theorem C2_terminal_short_circuit {α : Type} (ch : RobustStructuredChain α) (backend : Backend)
    (input : List (String × String)) (dv : Option (List (String × JsonVal))) (mr : Option Nat)
    (p : String) (e : Nat → PyErr)
    (hfmt : formatTemplate ch.template (input ++ ch.partialVars) = .ok p)
    (hb : ∀ n, backend n = .raise (e n))
    (hq : ∀ n, is_openai_quota_error (e n) = true) :
    (ch.invoke backend input dv mr).result = .error (.quotaExhausted quotaHint) ∧
    (ch.invoke backend input dv mr).nAttempts = 1 := by
  have h0 : attemptOnce (formatTemplate ch.template (input ++ ch.partialVars)) (backend 0)
      ch.modelo dv = ⟨.error (e 0), none, true, false⟩ := by
    rw [hfmt, hb 0]; exact attemptOnce_raise ch.modelo dv p (e 0)
  constructor <;> simp [RobustStructuredChain.invoke, invokeLoop, h0, hq 0]

/-- Claim C2 witness. -/
theorem C2_terminal_short_circuit_witness :
    (ch7.invoke (fun _ => .raise (.backendError true "429 insufficient_quota"))
        [("kw", "x")] none none).result = .error (.quotaExhausted quotaHint) ∧
    (ch7.invoke (fun _ => .raise (.backendError true "429 insufficient_quota"))
        [("kw", "x")] none none).nAttempts = 1 :=
  C2_terminal_short_circuit ch7 (fun _ => .raise (.backendError true "429 insufficient_quota"))
    [("kw", "x")] none none "Label: x" (fun _ => .backendError true "429 insufficient_quota")
    rfl (fun _ => rfl) (fun _ => rfl)

/-- Claim C3 counterexample: a concrete run with a transient backend error
and retry budget remaining performs two consecutive attempts while the list
of backoff sleeps stays empty: no `delay_for(attempt)` wait is ever taken
between attempts (the source's retry branch only logs; `time` is imported
but `time.sleep` is never called and `RetryConfig.get_delay` is never
invoked by the loop). -/
theorem C3_counterexample :
    (ch7.invoke (fun _ => .raise (.backendError false "boom")) [("kw", "x")] none
        (some 1)).nAttempts = 2 ∧
    (ch7.invoke (fun _ => .raise (.backendError false "boom")) [("kw", "x")] none
        (some 1)).sleeps = [] ∧
    (ch7.invoke (fun _ => .raise (.backendError false "boom")) [("kw", "x")] none
        (some 1)).result = .error (.retryExhausted (some (.backendError false "boom")) none) := by
  refine ⟨rfl, rfl, rfl⟩

/-- Claim C3 amended: the orchestrator never waits between attempts — for
every chain, backend, input, default and retry budget, the invocation
performs no backoff sleep at all; transient retries are issued
back-to-back. -/
theorem C3_no_backoff_wait {α : Type} (ch : RobustStructuredChain α) (backend : Backend)
    (input : List (String × String)) (dv : Option (List (String × JsonVal))) (mr : Option Nat) :
    (ch.invoke backend input dv mr).sleeps = [] := by
  unfold RobustStructuredChain.invoke
  exact invokeLoop_sleeps_nil _ _ _ _ _ _ _ _

/-- Claim C4 counterexample: with the template `\x7bname\x7d`, no binding
for `name`, and a retry budget of 1, `invoke` does not fail immediately: it
consumes the full budget (2 attempts), never calls the backend, and raises
the retry-exhausted error wrapping the render-time `KeyError`. -/
theorem C4_counterexample :
    (ch4.invoke (fun _ => .ok "ignored") [] none (some 1)).result =
      .error (.retryExhausted (some (.keyError "name")) none) ∧
    (ch4.invoke (fun _ => .ok "ignored") [] none (some 1)).nAttempts = 2 ∧
    (ch4.invoke (fun _ => .ok "ignored") [] none (some 1)).nLlmCalls = 0 := by
  refine ⟨rfl, rfl, rfl⟩

/-- Claim C4 amended: an unbound placeholder does fail at render time within
each attempt — the backend is never called and the literal placeholder never
reaches a prompt — but the render failure is treated as a transient error:
the loop retries it, consuming the whole budget, and (without a default)
`invoke` raises the retry-exhausted error wrapping the `KeyError` after
`max_retries + 1` render failures. -/
theorem C4_render_failure_is_retried {α : Type} (ch : RobustStructuredChain α)
    (backend : Backend) (input : List (String × String)) (mr : Option Nat) (nm : String)
    (hfmt : formatTemplate ch.template (input ++ ch.partialVars) = .error (.keyError nm)) :
    (ch.invoke backend input none mr).result =
      .error (.retryExhausted (some (.keyError nm)) none) ∧
    (ch.invoke backend input none mr).nAttempts = mr.getD ch.max_retries + 1 ∧
    (ch.invoke backend input none mr).nLlmCalls = 0 := by
  have hA : ∀ n, attemptOnce (formatTemplate ch.template (input ++ ch.partialVars)) (backend n)
      ch.modelo none = ⟨.error (.keyError nm), none, false, false⟩ := by
    intro n; rw [hfmt]; exact attemptOnce_fmt_error ch.modelo none (.keyError nm) (backend n)
  have h := invokeLoop_fail (formatTemplate ch.template (input ++ ch.partialVars)) backend
    ch.modelo none (fun _ => .keyError nm) (fun _ => none) false false hA (fun _ => rfl)
    (mr.getD ch.max_retries) 0 none none
  unfold RobustStructuredChain.invoke
  rw [h, respAfter_none]
  simp [afterLoop, cnt]

/-- Claim C4 witness. -/
theorem C4_render_failure_is_retried_witness :
    (ch4.invoke (fun _ => .ok "ignored") [] none (some 2)).result =
      .error (.retryExhausted (some (.keyError "name")) none) ∧
    (ch4.invoke (fun _ => .ok "ignored") [] none (some 2)).nAttempts = 3 ∧
    (ch4.invoke (fun _ => .ok "ignored") [] none (some 2)).nLlmCalls = 0 :=
  C4_render_failure_is_retried ch4 (fun _ => .ok "ignored") [] (some 2) "name" rfl

/-- Claim C6: a backend whose every response is empty or whitespace-only is
treated exactly like a transient backend error — the parsing stage is never
reached — and with `max_retries = 2` and no default, `invoke` raises the
retry-exhausted error after exactly 3 attempts, carrying the last
underlying error (the empty-response `ValueError`) and the last raw
response. -/
theorem C6_empty_response_exhaustion {α : Type} (ch : RobustStructuredChain α)
    (backend : Backend) (input : List (String × String)) (p : String) (s : Nat → String)
    (hfmt : formatTemplate ch.template (input ++ ch.partialVars) = .ok p)
    (hb : ∀ n, backend n = .ok (s n)) (hw : ∀ n, pstrip (s n) = "") :
    (ch.invoke backend input none (some 2)).result =
      .error (.retryExhausted (some (.valueError "Respuesta vacía del LLM")) (some (s 2))) ∧
    (ch.invoke backend input none (some 2)).nAttempts = 3 ∧
    (ch.invoke backend input none (some 2)).nParseTries = 0 := by
  have hA : ∀ n, attemptOnce (formatTemplate ch.template (input ++ ch.partialVars)) (backend n)
      ch.modelo none =
      ⟨.error (.valueError "Respuesta vacía del LLM"), some (s n), true, false⟩ := by
    intro n; rw [hfmt, hb n]; exact attemptOnce_empty ch.modelo none p (s n) (hw n)
  have h := invokeLoop_fail (formatTemplate ch.template (input ++ ch.partialVars)) backend
    ch.modelo none (fun _ => .valueError "Respuesta vacía del LLM") (fun n => some (s n))
    true false hA (fun _ => rfl) 2 0 none none
  simp only [RobustStructuredChain.invoke, Option.getD_some]
  rw [h, respAfter_some s 3 0 none (by omega)]
  simp [afterLoop, cnt]

/-- Claim C6 witness. -/
theorem C6_empty_response_exhaustion_witness :
    (ch7.invoke (fun _ => .ok "") [("kw", "x")] none (some 2)).result =
      .error (.retryExhausted (some (.valueError "Respuesta vacía del LLM")) (some "")) ∧
    (ch7.invoke (fun _ => .ok "") [("kw", "x")] none (some 2)).nAttempts = 3 ∧
    (ch7.invoke (fun _ => .ok "") [("kw", "x")] none (some 2)).nParseTries = 0 :=
  C6_empty_response_exhaustion ch7 (fun _ => .ok "") [("kw", "x")] "Label: x" (fun _ => "")
    rfl (fun _ => rfl) (fun _ => rfl)

/-- The fixed garbage response used in witnesses has a nonempty strip. -/
theorem garbage_strip_ne : pstrip "garbage" ≠ "" := by decide

/-- Claim C1 counterexample: with a backend that always returns unparsable
garbage, a schema-conformant non-empty default, and the constructor budget
`max_retries = 3`, `invoke` returns the default-derived value after exactly
1 attempt — not after `max_retries + 1 = 4` attempts as claimed: the
per-attempt call `parsear_pydantic_seguro(texto, modelo, default_value)` at
llm_provider.py line 375 passes the caller's default into the per-attempt
schema parse, which applies it as soon as the first parse fails. -/
theorem C1_counterexample :
    (ch7.invoke (fun _ => .ok "garbage") [("kw", "x")]
        (some [("label", .jstr "fallback")]) none).result = .ok "fallback" ∧
    (ch7.invoke (fun _ => .ok "garbage") [("kw", "x")]
        (some [("label", .jstr "fallback")]) none).nAttempts = 1 ∧
    ch7.max_retries = 3 :=
  ⟨rfl, rfl, rfl⟩

/-- Claim C1 amended: the schema parse performed on each attempt does use
the caller's default value; consequently, for every backend that always
returns unparsable text and every non-empty schema-conformant default,
`invoke` returns the default-derived value after exactly 1 attempt, with no
exception raised. -/
theorem C1_default_used_on_first_attempt {α : Type} (ch : RobustStructuredChain α)
    (backend : Backend) (input : List (String × String)) (mr : Option Nat) (p : String)
    (d : List (String × JsonVal)) (v : α)
    (hfmt : formatTemplate ch.template (input ++ ch.partialVars) = .ok p)
    (hresp : ∀ n, ∃ t, backend n = .ok t ∧ pstrip t ≠ "" ∧
      parser_parse t ch.modelo = none ∧ parsear_json_seguro t = none)
    (hd : d ≠ []) (hv : ch.modelo.validate d = some v) :
    (ch.invoke backend input (some d) mr).result = .ok v ∧
    (ch.invoke backend input (some d) mr).nAttempts = 1 := by
  obtain ⟨t, hb, hne, hpp, hjs⟩ := hresp 0
  have hdt : defaultsTry ch.modelo (some d) = some v := by
    simp [defaultsTry, List.isEmpty_iff, hd, hv]
  have hA : attemptOnce (formatTemplate ch.template (input ++ ch.partialVars)) (backend 0)
      ch.modelo (some d) = ⟨.ok v, some t, true, true⟩ := by
    rw [hfmt, hb, attemptOnce_garbage ch.modelo (some d) p t hne hpp hjs, hdt]
  constructor <;> simp [RobustStructuredChain.invoke, invokeLoop, hA]

/-- Claim C1 amended witness. -/
theorem C1_default_used_on_first_attempt_witness :
    (ch7.invoke (fun _ => .ok "garbage") [("kw", "x")]
        (some [("label", .jstr "fallback")]) (some 3)).result = .ok "fallback" ∧
    (ch7.invoke (fun _ => .ok "garbage") [("kw", "x")]
        (some [("label", .jstr "fallback")]) (some 3)).nAttempts = 1 :=
  C1_default_used_on_first_attempt ch7 (fun _ => .ok "garbage") [("kw", "x")] (some 3)
    "Label: x" [("label", .jstr "fallback")] "fallback" rfl
    (fun _ => ⟨"garbage", rfl, garbage_strip_ne, rfl, rfl⟩) (by simp) rfl

/-- Claim C10: when every attempt fails (backend text that defeats both
parsing tiers) and the caller-supplied default itself fails schema
validation, `invoke` silently discards the invalid default — both inside
each attempt and in the epilogue — and raises the retry-exhausted error
(wrapping the last parse failure, not a validation error), never returning
a value. -/
theorem C10_invalid_default_exhaustion {α : Type} (ch : RobustStructuredChain α)
    (backend : Backend) (input : List (String × String)) (mr : Option Nat) (p : String)
    (d : List (String × JsonVal)) (g : Nat → String)
    (hfmt : formatTemplate ch.template (input ++ ch.partialVars) = .ok p)
    (hb : ∀ n, backend n = .ok (g n)) (hne : ∀ n, pstrip (g n) ≠ "")
    (hpp : ∀ n, parser_parse (g n) ch.modelo = none)
    (hjs : ∀ n, parsear_json_seguro (g n) = none)
    (hdv : ch.modelo.validate d = none) :
    (ch.invoke backend input (some d) mr).result =
      .error (.retryExhausted
        (some (.valueError ("No se pudo parsear respuesta: " ++
          takeStr 200 (g (mr.getD ch.max_retries)) ++ "...")))
        (some (g (mr.getD ch.max_retries)))) ∧
    (ch.invoke backend input (some d) mr).nAttempts = mr.getD ch.max_retries + 1 := by
  have hdt : defaultsTry ch.modelo (some d) = none := by
    rcases d with _ | ⟨f, rest⟩
    · simp [defaultsTry]
    · simp [defaultsTry, hdv]
  have hA : ∀ n, attemptOnce (formatTemplate ch.template (input ++ ch.partialVars)) (backend n)
      ch.modelo (some d) =
      ⟨.error (.valueError ("No se pudo parsear respuesta: " ++ takeStr 200 (g n) ++ "...")),
       some (g n), true, true⟩ := by
    intro n
    rw [hfmt, hb n, attemptOnce_garbage ch.modelo (some d) p (g n) (hne n) (hpp n) (hjs n), hdt]
  have h := invokeLoop_fail (formatTemplate ch.template (input ++ ch.partialVars)) backend
    ch.modelo (some d)
    (fun n => .valueError ("No se pudo parsear respuesta: " ++ takeStr 200 (g n) ++ "..."))
    (fun n => some (g n)) true true hA (fun _ => rfl) (mr.getD ch.max_retries) 0 none none
  simp only [RobustStructuredChain.invoke]
  rw [h, respAfter_some g (mr.getD ch.max_retries + 1) 0 none (by omega)]
  simp [afterLoop, hdv, cnt]

/-- Claim C10 witness. -/
theorem C10_invalid_default_exhaustion_witness :
    (ch7.invoke (fun _ => .ok "garbage") [("kw", "x")] (some [("wrong", .jnum "1")])
        (some 2)).result =
      .error (.retryExhausted
        (some (.valueError "No se pudo parsear respuesta: garbage...")) (some "garbage")) ∧
    (ch7.invoke (fun _ => .ok "garbage") [("kw", "x")] (some [("wrong", .jnum "1")])
        (some 2)).nAttempts = 3 :=
  C10_invalid_default_exhaustion ch7 (fun _ => .ok "garbage") [("kw", "x")] (some 2)
    "Label: x" [("wrong", .jnum "1")] (fun _ => "garbage") rfl (fun _ => rfl)
    (fun _ => garbage_strip_ne) (fun _ => rfl) (fun _ => rfl) rfl

/-- Claim C7: the spec's end-to-end scenario.  Template `Label: \x7bkw\x7d`
with `kw = "beach, sunset"`, the `\x7blabel: string\x7d` schema, and a
backend whose first response wraps a single-quoted JSON object in prose and
a tagged markdown fence: `invoke` returns the value with
`label = "Beach Sunset"` (markdown extraction plus single-quote repair)
using exactly 1 attempt and exactly 1 backend call. -/
theorem C7_end_to_end_markdown_single_quote :
    (ch7.invoke (fun n => if n = 0 then .ok resp7 else .raise (.backendError false "later"))
        [("kw", "beach, sunset")] none none).result = .ok "Beach Sunset" ∧
    (ch7.invoke (fun n => if n = 0 then .ok resp7 else .raise (.backendError false "later"))
        [("kw", "beach, sunset")] none none).nAttempts = 1 ∧
    (ch7.invoke (fun n => if n = 0 then .ok resp7 else .raise (.backendError false "later"))
        [("kw", "beach, sunset")] none none).nLlmCalls = 1 :=
  ⟨rfl, rfl, rfl⟩

/-! ## Repair-pass identity lemmas (for claim C5) -/

/-- Pass 1 is the identity on strings containing no BOM / zero-width
characters. -/
theorem rpStrip_id (cs : List Char) (h : ∀ c ∈ cs, invisCh c = false) : rpStrip cs = cs := by
  have h1 : cs.dropWhile invisCh = cs := by
    rcases cs with _ | ⟨c, rest⟩
    · rfl
    · simp [List.dropWhile, h c (by simp)]
  unfold rpStrip
  rw [h1, List.rdropWhile_eq_self_iff]
  intro hl
  simp [h _ (List.getLast_mem hl)]

/-- Without any single quote, the pass-2 matcher never fires. -/
theorem tryQuoteMatch_none (cs : List Char) (h : ∀ c ∈ cs, c ≠ squote) :
    tryQuoteMatch cs = none := by
  unfold tryQuoteMatch
  rcases h1 : cs.dropWhile isPyWs with _ | ⟨c, r2⟩
  · rfl
  · have hc : c ∈ cs := (List.dropWhile_suffix isPyWs).subset (by rw [h1]; simp)
    simp [h c hc]

/-- Pass 2 is the identity on strings containing no single quote. -/
theorem rpQuotesGo_id : ∀ (fuel : Nat) (prev : Option Char) (cs : List Char),
    (∀ c ∈ cs, c ≠ squote) → rpQuotesGo fuel prev cs = cs := by
  intro fuel
  induction fuel with
  | zero => intro prev cs _; rfl
  | succ n ih =>
    intro prev cs h
    rcases cs with _ | ⟨c, rest⟩
    · rfl
    · have hrest : ∀ x ∈ rest, x ≠ squote := fun x hx => h x (by simp [hx])
      simp only [rpQuotesGo, tryQuoteMatch_none (c :: rest) h]
      split <;> simp [ih _ rest hrest]

/-- Pass 3 is the identity on strings containing no comma. -/
theorem rpTrailingGo_id : ∀ (fuel : Nat) (cs : List Char),
    (∀ c ∈ cs, c ≠ ',') → rpTrailingGo fuel cs = cs := by
  intro fuel
  induction fuel with
  | zero => intro cs _; rfl
  | succ n ih =>
    intro cs h
    rcases cs with _ | ⟨c, rest⟩
    · rfl
    · have hrest : ∀ x ∈ rest, x ≠ ',' := fun x hx => h x (by simp [hx])
      simp [rpTrailingGo, h c (by simp), ih rest hrest]

/-- Without any colon, the pass-4 matcher never fires. -/
theorem tryKey_none (cs : List Char) (h : ∀ c ∈ cs, c ≠ ':') : tryKey cs = none := by
  unfold tryKey
  rcases h1 : (cs.dropWhile isPyWs).takeWhile isWordCh with _ | ⟨w0, wrest⟩
  · rfl
  · rcases h2 : ((cs.dropWhile isPyWs).dropWhile isWordCh).dropWhile isPyWs with _ | ⟨d, r5⟩
    · rfl
    · have hd : d ∈ cs := by
        have s1 : d ∈ ((cs.dropWhile isPyWs).dropWhile isWordCh).dropWhile isPyWs := by
          rw [h2]; simp
        exact (List.dropWhile_suffix isPyWs).subset
          ((List.dropWhile_suffix isWordCh).subset ((List.dropWhile_suffix isPyWs).subset s1))
      simp [h d hd]

/-- Pass 4 is the identity on strings containing no colon. -/
theorem rpKeysGo_id : ∀ (fuel : Nat) (cs : List Char),
    (∀ c ∈ cs, c ≠ ':') → rpKeysGo fuel cs = cs := by
  intro fuel
  induction fuel with
  | zero => intro cs _; rfl
  | succ n ih =>
    intro cs h
    rcases cs with _ | ⟨c, rest⟩
    · rfl
    · have hrest : ∀ x ∈ rest, x ≠ ':' := fun x hx => h x (by simp [hx])
      simp only [rpKeysGo, tryKey_none rest hrest]
      split <;> simp [ih rest hrest]

/-- Pass 5 is the identity on strings in which the keyword does not occur
as a substring. -/
theorem rpKwGo_id (k0 : Char) (krest repl : List Char) :
    ∀ (fuel : Nat) (prev : Option Char) (cs : List Char),
      ¬ ((k0 :: krest) <:+: cs) → rpKwGo k0 krest repl fuel prev cs = cs := by
  intro fuel
  induction fuel with
  | zero => intro prev cs _; rfl
  | succ n ih =>
    intro prev cs h
    rcases cs with _ | ⟨c, rest⟩
    · rfl
    · have hpre : (k0 :: krest).isPrefixOf (c :: rest) = false := by
        rcases hp : (k0 :: krest).isPrefixOf (c :: rest)
        · rfl
        · exact absurd ( List.isPrefixOf_iff_prefix.mp hp).isInfix h
      have hrest : ¬ ((k0 :: krest) <:+: rest) := fun hx =>
        h (hx.trans (List.suffix_cons c rest).isInfix)
      simp [rpKwGo, hpre, ih _ rest hrest]

/-- Pass 6 is the identity on strings containing no newline. -/
theorem rpNewlines_id : ∀ (prev : Option Char) (cs : List Char),
    (∀ c ∈ cs, c ≠ Char.ofNat 10) → rpNewlines prev cs = cs := by
  intro prev cs
  induction cs generalizing prev with
  | nil => intro _; rfl
  | cons c rest ih =>
    intro h
    have hrest : ∀ x ∈ rest, x ≠ Char.ofNat 10 := fun x hx => h x (by simp [hx])
    simp [rpNewlines, h c (by simp), ih _ hrest]

/-- Claim C5 counterexample: `reparar_json` is not idempotent — on the
input `,,\x7d` a second application collapses the comma run further — and
it does not leave already-valid JSON unchanged: `\x7b"a": "True"\x7d` is
valid JSON (`jsonLoads` accepts it) yet the Python-keyword pass rewrites
the keyword inside the string value. -/
theorem C5_counterexample :
    reparar_json (reparar_json ",,\x7d") ≠ reparar_json ",,\x7d" ∧
    (jsonLoads "\x7b\"a\": \"True\"\x7d").isSome = true ∧
    reparar_json "\x7b\"a\": \"True\"\x7d" ≠ "\x7b\"a\": \"True\"\x7d" := by
  refine ⟨by decide, rfl, by decide⟩

/-- Claim C5 amended: the repair passes are not idempotent in general and
can change valid JSON (see the counterexample); what holds is that
`reparar_json` is the identity — and hence trivially idempotent — on every
string free of its trigger patterns: no BOM/zero-width characters, no
single quote, no comma, no colon, no newline, and no occurrence of the
Python keywords `True`/`False`/`None`. -/
theorem C5_repair_identity_on_trigger_free (x : String)
    (h1 : ∀ c ∈ x.data, invisCh c = false)
    (h2 : ∀ c ∈ x.data, c ≠ squote)
    (h3 : ∀ c ∈ x.data, c ≠ ',')
    (h4 : ∀ c ∈ x.data, c ≠ ':')
    (h5 : ∀ c ∈ x.data, c ≠ Char.ofNat 10)
    (h6 : ¬ ("True".data <:+: x.data))
    (h7 : ¬ ("False".data <:+: x.data))
    (h8 : ¬ ("None".data <:+: x.data)) :
    reparar_json x = x ∧ reparar_json (reparar_json x) = reparar_json x := by
  have e1 : rpStrip x.data = x.data := rpStrip_id x.data h1
  have e2 : rpQuotes none x.data = x.data := rpQuotesGo_id _ none x.data h2
  have e3 : rpTrailing x.data = x.data := rpTrailingGo_id _ x.data h3
  have e4 : rpKeys x.data = x.data := rpKeysGo_id _ x.data h4
  have e5 : rpKw 'T' ['r', 'u', 'e'] ['t', 'r', 'u', 'e'] none x.data = x.data :=
    rpKwGo_id 'T' ['r', 'u', 'e'] ['t', 'r', 'u', 'e'] _ none x.data h6
  have e6 : rpKw 'F' ['a', 'l', 's', 'e'] ['f', 'a', 'l', 's', 'e'] none x.data = x.data :=
    rpKwGo_id 'F' ['a', 'l', 's', 'e'] ['f', 'a', 'l', 's', 'e'] _ none x.data h7
  have e7 : rpKw 'N' ['o', 'n', 'e'] ['n', 'u', 'l', 'l'] none x.data = x.data :=
    rpKwGo_id 'N' ['o', 'n', 'e'] ['n', 'u', 'l', 'l'] _ none x.data h8
  have e8 : rpNewlines none x.data = x.data := rpNewlines_id none x.data h5
  have hx : reparar_json x = x := by
    unfold reparar_json
    split
    · rfl
    · simp only [e1, e2, e3, e4, e5, e6, e7, e8]
  exact ⟨hx, by rw [hx, hx]⟩

/-- Claim C5 amended witness: the identity at the trigger-free string
`hello`. -/
theorem C5_repair_identity_on_trigger_free_witness :
    reparar_json "hello" = "hello" ∧
    reparar_json (reparar_json "hello") = reparar_json "hello" :=
  C5_repair_identity_on_trigger_free "hello" (by decide) (by decide) (by decide) (by decide)
    (by decide) (by decide) (by decide) (by decide)

/-! ## Bracket-scanner lemmas (for claim C8) -/

/-- If the effect-free scan of `L` ends in state `st` without stopping, the
index-returning scanner over `L ++ rest` continues into `rest` in state
`st`, with the index advanced by `L.length`. -/
theorem scanFree_scanCierre (co cc : Char) :
    ∀ (L : List Char) (n : Int) (s e : Bool) (st : Int × Bool × Bool),
      scanFree co cc L n s e = some st →
      ∀ (rest : List Char) (i : Nat),
        scanCierre co cc (L ++ rest) n s e i = scanCierre co cc rest st.1 st.2.1 st.2.2 (i + L.length) := by
  intro L
  induction L with
  | nil =>
    intro n s e st h rest i
    simp only [scanFree] at h
    cases h
    simp
  | cons c cs ih =>
    intro n s e st h rest i
    have harith : i + (c :: cs).length = (i + 1) + cs.length := by
      simp only [List.length_cons]; omega
    simp only [scanFree] at h
    simp only [List.cons_append, scanCierre, harith]
    by_cases he : e
    · simp only [he, if_true] at h ⊢
      exact ih _ _ _ _ h rest (i + 1)
    · simp only [he, if_false] at h ⊢
      by_cases hc1 : c = bslash
      · simp only [hc1, if_true] at h ⊢
        exact ih _ _ _ _ h rest (i + 1)
      · simp only [hc1, if_false] at h ⊢
        by_cases hc2 : c = dquote
        · simp only [hc2, if_true] at h ⊢
          exact ih _ _ _ _ h rest (i + 1)
        · simp only [hc2, if_false] at h ⊢
          by_cases hc3 : !s && c = co
          · simp only [hc3, if_true] at h ⊢
            exact ih _ _ _ _ h rest (i + 1)
          · simp only [hc3, if_false] at h ⊢
            by_cases hc4 : !s && c = cc
            · simp only [hc4, if_true] at h ⊢
              by_cases hn : n - 1 = 0
              · simp only [hn, if_true] at h
                cases h
              · simp only [hn, if_false] at h ⊢
                exact ih _ _ _ _ h rest (i + 1)
            · simp only [hc4, if_false] at h ⊢
              exact ih _ _ _ _ h rest (i + 1)

/-- The effect-free scan distributes over concatenation. -/
theorem scanFree_chain (co cc : Char) :
    ∀ (a : List Char) (n : Int) (s e : Bool) (st : Int × Bool × Bool),
      scanFree co cc a n s e = some st →
      ∀ b : List Char, scanFree co cc (a ++ b) n s e = scanFree co cc b st.1 st.2.1 st.2.2 := by
  intro a
  induction a with
  | nil =>
    intro n s e st h b
    simp only [scanFree] at h
    cases h
    simp
  | cons c cs ih =>
    intro n s e st h b
    simp only [scanFree] at h
    simp only [List.cons_append, scanFree]
    by_cases he : e
    · simp only [he, if_true] at h ⊢; exact ih _ _ _ _ h b
    · simp only [he, if_false] at h ⊢
      by_cases hc1 : c = bslash
      · simp only [hc1, if_true] at h ⊢; exact ih _ _ _ _ h b
      · simp only [hc1, if_false] at h ⊢
        by_cases hc2 : c = dquote
        · simp only [hc2, if_true] at h ⊢; exact ih _ _ _ _ h b
        · simp only [hc2, if_false] at h ⊢
          by_cases hc3 : !s && c = co
          · simp only [hc3, if_true] at h ⊢; exact ih _ _ _ _ h b
          · simp only [hc3, if_false] at h ⊢
            by_cases hc4 : !s && c = cc
            · simp only [hc4, if_true] at h ⊢
              by_cases hn : n - 1 = 0
              · simp only [hn, if_true] at h; cases h
              · simp only [hn, if_false] at h ⊢; exact ih _ _ _ _ h b
            · simp only [hc4, if_false] at h ⊢; exact ih _ _ _ _ h b

/-- Escaped string bodies are neutral for the scanner while inside a
string: the state is preserved and the scan never stops. -/
theorem scanFree_escJList (co cc : Char) :
    ∀ (s : List Char) (n : Int), scanFree co cc (escJList s) n true false = some (n, true, false) := by
  intro s
  induction s with
  | nil => intro n; rfl
  | cons c cs ih =>
    intro n
    by_cases hc : c = dquote || c = bslash
    · have : escJList (c :: cs) = bslash :: c :: escJList cs := by
        simp [escJList, hc]
      rw [this]
      have h1 : scanFree co cc (bslash :: c :: escJList cs) n true false =
          scanFree co cc (c :: escJList cs) n true true := by
        simp [scanFree]
      rw [h1]
      have h2 : scanFree co cc (c :: escJList cs) n true true =
          scanFree co cc (escJList cs) n true false := by
        simp [scanFree]
      rw [h2, ih]
    · have : escJList (c :: cs) = c :: escJList cs := by
        simp [escJList, hc]
      rw [this]
      have hcd : c = dquote → False := by
        intro h0; rw [h0] at hc; simp at hc
      have hcb : c = bslash → False := by
        intro h0; rw [h0] at hc; simp at hc
      have h1 : scanFree co cc (c :: escJList cs) n true false =
          scanFree co cc (escJList cs) n true false := by
        simp only [scanFree, Bool.not_true, Bool.false_and, Bool.false_eq_true, if_false]
        rw [if_neg hcb, if_neg hcd]
      rw [h1, ih]

/-- Scanning one serialized field from outside a string preserves the
state. -/
theorem scanFree_serField (k v : List Char) (n : Int) :
    scanFree lbrace rbrace (serField k v) n false false = some (n, false, false) := by
  unfold serField
  rw [List.append_assoc, List.append_assoc, List.append_assoc]
  rw [scanFree_chain lbrace rbrace [dquote] n false false (n, true, false) rfl]
  dsimp only
  rw [scanFree_chain lbrace rbrace (escJList k) n true false (n, true, false)
    (scanFree_escJList lbrace rbrace k n)]
  dsimp only
  rw [scanFree_chain lbrace rbrace [dquote, ':', ' ', dquote] n true false (n, true, false) rfl]
  dsimp only
  rw [scanFree_chain lbrace rbrace (escJList v) n true false (n, true, false)
    (scanFree_escJList lbrace rbrace v n)]
  rfl

/-- Scanning the serialized fields of a flat object from outside a string
preserves the state: no brace inside a double-quoted key or value counts
toward nesting. -/
theorem scanFree_serFields (fs : List (List Char × List Char)) (n : Int) :
    scanFree lbrace rbrace (serFields fs) n false false = some (n, false, false) := by
  induction fs with
  | nil => rfl
  | cons f rest ih =>
    simp only [serFields]
    rcases rest with _ | ⟨g, rest2⟩
    · simp only [List.isEmpty_nil, if_true, List.append_nil, serFields]
      exact scanFree_serField f.1 f.2 n
    · simp only [List.isEmpty_cons, Bool.false_eq_true, if_false, List.append_assoc]
      rw [scanFree_chain lbrace rbrace (serField f.1 f.2) n false false (n, false, false)
        (scanFree_serField f.1 f.2 n)]
      dsimp only
      rw [scanFree_chain lbrace rbrace [',', ' '] n false false (n, false, false) rfl]
      exact ih

/-- The bracket scanner applied at a serialized object finds exactly its
closing brace: the returned end index is the start index plus the object
length, for any following text. -/
theorem scanCierre_serObj (fs : List (List Char × List Char)) (rest : List Char) (i : Nat) :
    scanCierre lbrace rbrace (serObj fs ++ rest) 0 false false i =
      some (i + (serObj fs).length) := by
  have hobj : serObj fs ++ rest = lbrace :: (serFields fs ++ (rbrace :: rest)) := by
    simp [serObj]
  rw [hobj]
  have hstep : scanCierre lbrace rbrace (lbrace :: (serFields fs ++ (rbrace :: rest))) 0
      false false i =
      scanCierre lbrace rbrace (serFields fs ++ (rbrace :: rest)) 1 false false (i + 1) := rfl
  rw [hstep]
  rw [scanFree_scanCierre lbrace rbrace (serFields fs) 1 false false (1, false, false)
    (scanFree_serFields fs 1) (rbrace :: rest) (i + 1)]
  have hclose : scanCierre lbrace rbrace (rbrace :: rest) 1 false false
      (i + 1 + (serFields fs).length) = some (i + 1 + (serFields fs).length + 1) := rfl
  rw [hclose]
  have : (serObj fs).length = (serFields fs).length + 2 := by
    simp [serObj]
  rw [this]
  congr 1
  omega

/-- Without a triple-backtick substring, the tagged fenced-block search
finds nothing. -/
theorem searchP1_none : ∀ cs : List Char, ¬ (fence <:+: cs) → searchP1 cs = none := by
  intro cs
  induction cs with
  | nil => intro _; rfl
  | cons c rest ih =>
    intro h
    have hp : fence.isPrefixOf (c :: rest) = false := by
      rcases hq : fence.isPrefixOf (c :: rest)
      · rfl
      · exact absurd ( List.isPrefixOf_iff_prefix.mp hq).isInfix h
    have h2 : ¬ (fence <:+: rest) := fun hx => h (hx.trans (List.suffix_cons c rest).isInfix)
    simp only [searchP1, tryP1, hp, Bool.false_eq_true, if_false, ih h2]

/-- Without a triple-backtick substring, the untagged fenced-block search
finds nothing. -/
theorem searchP2_none : ∀ cs : List Char, ¬ (fence <:+: cs) → searchP2 cs = none := by
  intro cs
  induction cs with
  | nil => intro _; rfl
  | cons c rest ih =>
    intro h
    have hp : fence.isPrefixOf (c :: rest) = false := by
      rcases hq : fence.isPrefixOf (c :: rest)
      · rfl
      · exact absurd ( List.isPrefixOf_iff_prefix.mp hq).isInfix h
    have h2 : ¬ (fence <:+: rest) := fun hx => h (hx.trans (List.suffix_cons c rest).isInfix)
    simp only [searchP2, tryP2, hp, Bool.false_eq_true, if_false, ih h2]

/-- Without a triple-backtick substring, markdown extraction yields
nothing. -/
theorem mdExtract_none (cs : List Char) (h : ¬ (fence <:+: cs)) : mdExtract cs = none := by
  simp only [mdExtract, searchP1_none cs h, searchP2_none cs h]

/-- Dropping a leading-whitespace run stops at an appended non-matching
character. -/
theorem dropWhile_append_keep (p : Char → Bool) (a : List Char) (c : Char) (b : List Char)
    (hc : p c = false) : (a ++ c :: b).dropWhile p = a.dropWhile p ++ c :: b := by
  rw [List.dropWhile_append]
  split
  · rename_i hp
    simp [List.isEmpty_iff.mp hp, List.dropWhile_cons, hc]
  · rfl

/-- Dropping a trailing-whitespace run stops at a prepended non-matching
character. -/
theorem rdropWhile_append_keep (p : Char → Bool) (a : List Char) (c : Char) (b : List Char)
    (hc : p c = false) : ((b ++ [c]) ++ a).rdropWhile p = (b ++ [c]) ++ a.rdropWhile p := by
  simp only [List.rdropWhile, List.reverse_append, List.reverse_cons, List.reverse_nil,
    List.nil_append, List.singleton_append]
  rw [dropWhile_append_keep p a.reverse c b.reverse hc]
  simp

/-- Stripping a text that embeds a serialized object strips only the
surrounding free text. -/
theorem pstripL_embed (pre post : List Char) (fs : List (List Char × List Char)) :
    pstripL (pre ++ serObj fs ++ post) =
      pre.dropWhile isPyWs ++ serObj fs ++ post.rdropWhile isPyWs := by
  unfold pstripL
  have h1 : (pre ++ serObj fs ++ post).dropWhile isPyWs =
      pre.dropWhile isPyWs ++ serObj fs ++ post := by
    rw [List.append_assoc]
    rw [show serObj fs ++ post = lbrace :: (serFields fs ++ (rbrace :: post)) from by
      simp [serObj]]
    rw [dropWhile_append_keep isPyWs pre lbrace (serFields fs ++ (rbrace :: post))
      (by decide)]
    simp [serObj]
  rw [h1]
  have h2 : pre.dropWhile isPyWs ++ serObj fs ++ post =
      ((pre.dropWhile isPyWs ++ (lbrace :: serFields fs)) ++ [rbrace]) ++ post := by
    simp [serObj]
  rw [h2, rdropWhile_append_keep isPyWs post rbrace
    (pre.dropWhile isPyWs ++ (lbrace :: serFields fs)) (by decide)]
  simp [serObj]

/-- The function `findChar` skips a prefix free of the target. -/
theorem findChar_append (t : Char) (a b : List Char) (h : ∀ c ∈ a, c ≠ t) :
    findChar t (a ++ b) = (findChar t b).map (· + a.length) := by
  induction a with
  | nil =>
    rcases hfb : findChar t b with _ | v <;> simp [hfb]
  | cons c rest ih =>
    have hrest : ∀ x ∈ rest, x ≠ t := fun x hx => h x (by simp [hx])
    rw [List.cons_append]
    rw [show findChar t (c :: (rest ++ b)) = (findChar t (rest ++ b)).map (· + 1) from by
      simp [findChar, h c (by simp)]]
    rw [ih hrest]
    rcases hfb : findChar t b with _ | v <;> simp [hfb, List.length_cons] <;> omega

/-- Claim C8: for every flat JSON object with string keys and string values
(values may contain braces, brackets, quotes or backslashes — they are
escaped in the serialization) embedded in surrounding free text, where the
text before the object contains no opening brace or bracket and the whole
text contains no markdown fence, extraction returns exactly the whole
balanced object: the string-aware bracket counter does not stop at braces
inside double-quoted strings, and backslash-escape tracking keeps escaped
quotes from toggling the string state. -/
theorem C8_bracket_scanner_string_safety (pre post : List Char)
    (fs : List (List Char × List Char))
    (hpre : ∀ c ∈ pre, c ≠ lbrace ∧ c ≠ lbrack)
    (hfence : ¬ (fence <:+: (pre ++ serObj fs ++ post))) :
    extraer_json_de_respuesta (String.mk (pre ++ serObj fs ++ post)) =
      some (String.mk (serObj fs)) := by
  have hstrip : pstripL (pre ++ serObj fs ++ post) =
      pre.dropWhile isPyWs ++ serObj fs ++ post.rdropWhile isPyWs := pstripL_embed pre post fs
  have hmid : (pre.dropWhile isPyWs ++ serObj fs ++ post.rdropWhile isPyWs) <:+:
      (pre ++ serObj fs ++ post) := by
    obtain ⟨w, hw⟩ := List.rdropWhile_prefix isPyWs post
    refine ⟨pre.takeWhile isPyWs, w, ?_⟩
    have hre : (pre.takeWhile isPyWs ++
          (pre.dropWhile isPyWs ++ serObj fs ++ post.rdropWhile isPyWs)) ++ w =
        ((pre.takeWhile isPyWs ++ pre.dropWhile isPyWs) ++ serObj fs) ++
          (post.rdropWhile isPyWs ++ w) := by
      simp only [List.append_assoc]
    rw [hre, List.takeWhile_append_dropWhile, hw]
  have hfence2 : ¬ (fence <:+:
      (pre.dropWhile isPyWs ++ serObj fs ++ post.rdropWhile isPyWs)) :=
    fun hx => hfence (hx.trans hmid)
  have hne : pre.dropWhile isPyWs ++ serObj fs ++ post.rdropWhile isPyWs ≠ [] := by
    simp [serObj]
  have hmd : mdExtract (pre.dropWhile isPyWs ++ serObj fs ++ post.rdropWhile isPyWs) = none :=
    mdExtract_none _ hfence2
  have hfree1 : ∀ c ∈ pre.dropWhile isPyWs, c ≠ lbrace :=
    fun c hc => (hpre c ((List.dropWhile_suffix _).subset hc)).1
  have hfree2 : ∀ c ∈ pre.dropWhile isPyWs, c ≠ lbrack :=
    fun c hc => (hpre c ((List.dropWhile_suffix _).subset hc)).2
  have hsplit : pre.dropWhile isPyWs ++ serObj fs ++ post.rdropWhile isPyWs =
      pre.dropWhile isPyWs ++ (serObj fs ++ post.rdropWhile isPyWs) :=
    List.append_assoc _ _ _
  have hobj2 : serObj fs ++ post.rdropWhile isPyWs =
      lbrace :: (serFields fs ++ (rbrace :: post.rdropWhile isPyWs)) := by
    simp [serObj]
  have hio : findChar lbrace (pre.dropWhile isPyWs ++ serObj fs ++ post.rdropWhile isPyWs) =
      some (pre.dropWhile isPyWs).length := by
    rw [hsplit, findChar_append lbrace _ _ hfree1, hobj2]
    simp [findChar]
  have hdrop : (pre.dropWhile isPyWs ++ serObj fs ++ post.rdropWhile isPyWs).drop
      (pre.dropWhile isPyWs).length = serObj fs ++ post.rdropWhile isPyWs := by
    rw [hsplit]
    exact List.drop_left _ _
  have hscan : scanCierre lbrace rbrace (serObj fs ++ post.rdropWhile isPyWs) 0 false false
      (pre.dropWhile isPyWs).length =
      some ((pre.dropWhile isPyWs).length + (serObj fs).length) :=
    scanCierre_serObj fs (post.rdropWhile isPyWs) (pre.dropWhile isPyWs).length
  have hlen2 : 2 ≤ (serObj fs).length := by
    simp [serObj]
  have hslice : ((pre.dropWhile isPyWs ++ serObj fs ++ post.rdropWhile isPyWs).take
        ((pre.dropWhile isPyWs).length + (serObj fs).length)).drop
        (pre.dropWhile isPyWs).length = serObj fs := by
    rw [hsplit, List.take_append, List.take_left]
    exact List.drop_left _ _
  have hxdata : (String.mk (pre ++ serObj fs ++ post)).data = pre ++ serObj fs ++ post := rfl
  have hia : findChar lbrack (pre.dropWhile isPyWs ++ serObj fs ++ post.rdropWhile isPyWs) =
      (findChar lbrack (serFields fs ++ (rbrace :: post.rdropWhile isPyWs))).map
        (fun j => (j + 1) + (pre.dropWhile isPyWs).length) := by
    rw [hsplit, findChar_append lbrack _ _ hfree2, hobj2]
    rw [show findChar lbrack (lbrace :: (serFields fs ++ (rbrace :: post.rdropWhile isPyWs))) =
        (findChar lbrack (serFields fs ++ (rbrace :: post.rdropWhile isPyWs))).map (· + 1) from by
      simp [findChar, show ¬ (lbrace = lbrack) from by decide]]
    rcases findChar lbrack (serFields fs ++ (rbrace :: post.rdropWhile isPyWs)) <;> simp
  rcases hj : findChar lbrack (serFields fs ++ (rbrace :: post.rdropWhile isPyWs)) with _ | j <;>
    rw [hj] at hia
  · simp only [Option.map_none'] at hia
    simp only [extraer_json_de_respuesta, hxdata, hstrip, if_neg hne, hmd, hio, hia]
    simp only [hdrop, hscan]
    rw [if_pos]
    · rw [hslice]
    · omega
  · simp only [Option.map_some'] at hia
    simp only [extraer_json_de_respuesta, hxdata, hstrip, if_neg hne, hmd, hio, hia]
    rw [if_pos]
    · simp only [hdrop, hscan]
      rw [if_pos]
      · rw [hslice]
      · omega
    · omega

/-- Claim C8 witness: the spec's example object with an embedded brace in a
string value, inside prose. -/
theorem C8_bracket_scanner_string_safety_witness :
    extraer_json_de_respuesta
        (String.mk ("foo ".data ++ serObj [("a".data, "x\x7dy".data)] ++ " bar".data)) =
      some (String.mk (serObj [("a".data, "x\x7dy".data)])) :=
  C8_bracket_scanner_string_safety "foo ".data " bar".data [("a".data, "x\x7dy".data)]
    (by decide) (by decide)

end Tourly
